import Mathlib

/-!
Shallow embedding of the SP_DATA v16 manifest-driven pipeline
(`src/sp_data_v16/ingestion` and `src/sp_data_v16/transformation`).

Conventions of the embedding:
* Python `bytes` are `List Nat` (byte values).
* Python `str` is Lean `String`; all text manipulation is carried out on
  `List Char` so that every definition evaluates by kernel reduction.
* `str.lower()` is modelled by `Char.toLower` on every character (ASCII
  case-folding; the repository's keywords and test data are ASCII).
* The external libraries (DuckDB, pandas, hashlib, the big5 codec) are
  out of scope per the specification; they are modelled by explicit
  parameters or by small executable models documented at each definition.
* Fallible Python code returns `Except PyExc _` or `Option _`; an
  uncaught Python exception is an `Except.error`.
-/

/-- Kinds of Python exceptions distinguished by the handlers in the source:
`duck` for `duckdb.Error`, `constraint` for `duckdb.ConstraintException`
(a subclass of `duckdb.Error`), `attr` for `AttributeError`, `typeErr` for
`TypeError`, `valueErr` for `ValueError`, `other` for anything else. -/
inductive PyExc where
  | duck
  | constraint
  | attr
  | typeErr
  | valueErr
  | other
  deriving DecidableEq

/-- Whether an exception kind is caught by `except duckdb.Error`. -/
def PyExc.isDuck : PyExc → Bool
  | PyExc.duck => true
  | PyExc.constraint => true
  | _ => false

/-! ### Character-list text utilities (executable models of `str` methods) -/

/-- Does `pre` lead `l` (i.e. is `pre` an initial segment of `l`)? -/
def leadsWith : List Char → List Char → Bool
  | [], _ => true
  | _ :: _, [] => false
  | a :: as, b :: bs => a == b && leadsWith as bs

/-- Python `needle in haystack`: does `needle` occur contiguously in
`haystack`?  The empty needle occurs in everything, as in Python. -/
def occursIn (needle : List Char) : List Char → Bool
  | [] => needle.isEmpty
  | c :: cs => leadsWith needle (c :: cs) || occursIn needle cs

/-- `occursIn` lifted to `String` (Python substring containment). -/
def strOccurs (needle haystack : String) : Bool :=
  occursIn needle.data haystack.data

/-- Split a character list on a single separator character. -/
def splitChar (sep : Char) : List Char → List (List Char)
  | [] => [[]]
  | c :: cs =>
    if c == sep then [] :: splitChar sep cs
    else
      match splitChar sep cs with
      | [] => [[c]]
      | p :: ps => (c :: p) :: ps

/-- Strip `pre` from the front of `l`, returning the remainder. -/
def stripSeq : List Char → List Char → Option (List Char)
  | [], l => some l
  | _ :: _, [] => none
  | a :: as, b :: bs => if a == b then stripSeq as bs else none

/-- Split a character list on a non-empty separator (first character
`s0`, remainder `srest`), as Python `str.split(sep)`.  Structural
recursion over a fuel argument (any fuel exceeding the list length gives
the split; each step consumes at least one character). -/
def splitSeqFuel (s0 : Char) (srest : List Char) : Nat → List Char → List (List Char)
  | 0, l => [l]
  | _ + 1, [] => [[]]
  | fuel + 1, c :: cs =>
    match stripSeq (s0 :: srest) (c :: cs) with
    | some rest => [] :: splitSeqFuel s0 srest fuel rest
    | none =>
      match splitSeqFuel s0 srest fuel cs with
      | [] => [[c]]
      | p :: ps => (c :: p) :: ps

/-- Python `text.split(sep)` for a non-empty separator, over `String`s. -/
def pySplitOn (sep : String) (text : List Char) : List (List Char) :=
  match sep.data with
  | [] => [text]
  | s0 :: srest => splitSeqFuel s0 srest (text.length + 1) text

/-- Python `str.lower()` restricted to ASCII case-folding. -/
def pyLower (s : String) : String := String.mk (s.data.map Char.toLower)

/-- Drop one trailing carriage return, as the CSV reader does per line. -/
def stripCR (l : List Char) : List Char :=
  match l.reverse with
  | c :: rest => if c == '\r' then rest.reverse else l
  | [] => l

/-! ### UTF-8 decoding (model of `bytes.decode('utf-8')`, strict mode) -/

/-- Is `b` a UTF-8 continuation byte? -/
def utf8Cont (b : Nat) : Bool := 0x80 ≤ b && b < 0xC0

/-- Strict UTF-8 decoder: rejects truncated sequences, overlong encodings,
surrogates and code points above U+10FFFF, exactly as Python's strict
`bytes.decode('utf-8')` does (which raises `UnicodeDecodeError`, modelled
as `none`). -/
def utf8Decode : List Nat → Option (List Char)
  | [] => some []
  | b :: bs =>
    if b < 0x80 then
      (utf8Decode bs).map (fun cs => Char.ofNat b :: cs)
    else if b < 0xC2 then none
    else if b < 0xE0 then
      match bs with
      | c :: bs2 =>
        if utf8Cont c then
          (utf8Decode bs2).map (fun cs => Char.ofNat ((b - 0xC0) * 0x40 + (c - 0x80)) :: cs)
        else none
      | [] => none
    else if b < 0xF0 then
      match bs with
      | c :: d :: bs2 =>
        let lo := if b == 0xE0 then 0xA0 else 0x80
        let hi := if b == 0xED then 0xA0 else 0xC0
        if (lo ≤ c && c < hi) && utf8Cont d then
          (utf8Decode bs2).map
            (fun cs => Char.ofNat ((b - 0xE0) * 0x1000 + (c - 0x80) * 0x40 + (d - 0x80)) :: cs)
        else none
      | _ => none
    else if b < 0xF5 then
      match bs with
      | c :: d :: e :: bs2 =>
        let lo := if b == 0xF0 then 0x90 else 0x80
        let hi := if b == 0xF4 then 0x90 else 0xC0
        if ((lo ≤ c && c < hi) && utf8Cont d) && utf8Cont e then
          (utf8Decode bs2).map
            (fun cs =>
              Char.ofNat
                ((b - 0xF0) * 0x40000 + (c - 0x80) * 0x1000 + (d - 0x80) * 0x40 + (e - 0x80)) :: cs)
        else none
      | _ => none
    else none

/-- Bytes of an ASCII string (used to build concrete test inputs). -/
def strToBytes (s : String) : List Nat := s.data.map Char.toNat

/-! ### Schema model (`schemas.json` documents, §6 of the spec) -/

/-- One column description inside a schema's `columns` mapping. -/
structure ColSpec where
  dtype : Option String := none
  nullable : Bool := true
  db_type : Option String := none
  deriving DecidableEq

/-- The JSON value found under a schema's `columns` key.  The repository's
code is dynamically typed here: `DataParser.parse` requires a JSON *list*
of column names, while `DataValidator.validate` and the loader require a
JSON *object* mapping names to column specs.  Both shapes are
representable so that each function's `isinstance`/attribute behaviour can
be translated faithfully. -/
inductive ColumnsVal where
  | strs (names : List String)
  | specs (cols : List (String × ColSpec))
  deriving DecidableEq

/-- A schema definition as loaded by `SchemaManager` from the JSON
registry (absent keys are `none` / `[]`, matching `dict.get` defaults). -/
structure SchemaDef where
  keywords : List String := []
  encoding : Option String := none
  delimiter : Option String := none
  csv_skip_rows : Option Nat := none
  unique_key : Option (List String) := none
  columns : Option ColumnsVal := none
  table_name : Option String := none
  deriving DecidableEq

/-! ### Tabular values (pandas DataFrames) -/

/-- A cell is either a present value (kept in its textual form; only
presence/absence and the literal text matter to the validator) or a
null (`NaN`/`NaT`/`pd.NA`). -/
abbrev Cell := Option String

/-- Column-major model of a pandas DataFrame: named columns of cells. -/
structure PandasDF where
  cols : List (String × List Cell)
  deriving DecidableEq

/-- The DataFrame's column labels. -/
def PandasDF.header (df : PandasDF) : List String := df.cols.map Prod.fst

/-- `df.shape[0]`: the number of rows (length of the first column; a
DataFrame without columns has zero rows). -/
def PandasDF.rowCount (df : PandasDF) : Nat :=
  match df.cols with
  | [] => 0
  | (_, c) :: _ => c.length

/-- Python `df.empty`: true when either axis has length zero. -/
def PandasDF.isEmptyDF (df : PandasDF) : Bool :=
  df.cols.isEmpty || df.rowCount == 0

/-- `df[name]`: the first column labelled `name`, if any. -/
def PandasDF.getCol (df : PandasDF) (name : String) : Option (List Cell) :=
  (df.cols.find? (fun p => p.1 == name)).map Prod.snd

/-- `df[name] = col`: replace every column labelled `name` by `col`. -/
def PandasDF.setCol (df : PandasDF) (name : String) (col : List Cell) : PandasDF :=
  ⟨df.cols.map (fun p => if p.1 == name then (p.1, col) else p)⟩

/-! ### DataParser (`transformation/parser.py`) -/

/-- The default `na_values` sentinel strings of `pandas.read_csv`:
fields equal to one of these (after `skipinitialspace`) become null. -/
def naValues : List String :=
  ["", "NA", "N/A", "n/a", "NaN", "nan", "NULL", "null", "None", "<NA>", "-NaN", "-nan"]

/-- A raw CSV field as a cell: `na_values` sentinels become null. -/
def cellOf (s : String) : Cell := if naValues.contains s then none else some s

/-- Split decoded text into CSV records: split on newlines, strip one
trailing carriage return per line, and skip blank lines
(`skip_blank_lines=True`, the `read_csv` default). -/
def csvLines (text : String) : List (List Char) :=
  ((splitChar '\n' text.data).map stripCR).filter (fun l => !l.isEmpty)

/-- Split one record into fields on the delimiter and apply
`skipinitialspace=True`: leading spaces of every field after the first
are dropped. -/
def csvFields (delimiter : String) (line : List Char) : List Cell :=
  match pySplitOn delimiter line with
  | [] => []
  | f :: fs =>
    cellOf (String.mk f) :: fs.map (fun g => cellOf (String.mk (g.dropWhile (· == ' '))))

/-- Model of `pandas.read_csv(io, delimiter=..., names=..., header=None,
skipinitialspace=True, index_col=False)`: every record becomes a data row
(no header inference), column labels are assigned positionally from
`names`, rows shorter than `names` are padded with nulls and extra
trailing fields are dropped.  A file with no records raises
`EmptyDataError` (returned as `none`; the caller catches it). -/
def readCsv (text : String) (delimiter : String) (names : List String) : Option PandasDF :=
  let rows := (csvLines text).map (csvFields delimiter)
  if rows.isEmpty then none
  else some ⟨names.enum.map (fun jn => (jn.2, rows.map (fun r => r.getD jn.1 none)))⟩

/-- `bytes.decode(encoding)` for the encodings the code uses: real UTF-8,
the external big5 codec as the parameter `big5`, and any other encoding
name fails (Python raises `LookupError`, swallowed by the caller's broad
`except`). -/
def decodeByEncoding (big5 : List Nat → Option String) (encoding : String)
    (raw : List Nat) : Option String :=
  if encoding == "utf-8" then (utf8Decode raw).map String.mk
  else if encoding == "big5" then big5 raw
  else none

namespace DataParser

/-- `DataParser.parse(raw_content, schema)` from
`transformation/parser.py`.  Note: the function reads only `encoding`,
`delimiter` and `columns` from the schema — the schema's declared
`csv_skip_rows` count is never consulted, and `columns` must be a JSON
list of names (`isinstance(columns, list)`); the mapping-valued `columns`
used by the validator and the pipeline's schema registry is rejected with
`None`.  Every failure (empty content, bad columns, decode error, CSV
error) returns `None`. -/
def parse (big5 : List Nat → Option String) (raw_content : List Nat)
    (schema : SchemaDef) : Option PandasDF :=
  if raw_content.isEmpty then none
  else
    let encoding := schema.encoding.getD "utf-8"
    let delimiter := schema.delimiter.getD ","
    match schema.columns with
    | some (ColumnsVal.strs names) =>
      if names.isEmpty then none
      else
        match decodeByEncoding big5 encoding raw_content with
        | none => none
        | some text => if delimiter.isEmpty then none else readCsv text delimiter names
    | _ => none

end DataParser

/-! ### DataValidator (`transformation/validator.py`) -/

/-- Is `c` an ASCII digit? -/
def isDigitCh (c : Char) : Bool := '0' ≤ c && c ≤ '9'

/-- Split an unsigned numeric literal into integer digits and fractional
digits; `none` when the characters do not form `digits [. digits]`. -/
def fracSplit : List Char → Option (List Char × List Char)
  | [] => some ([], [])
  | '.' :: rest => if rest.all isDigitCh then some ([], rest) else none
  | c :: rest =>
    if isDigitCh c then (fracSplit rest).map (fun p => (c :: p.1, p.2)) else none

/-- Signed decimal literal split (model of the literals accepted by
`pandas.to_numeric`; scientific notation is not modelled). -/
def numParts (s : String) : Option (List Char × List Char) :=
  match s.data with
  | '-' :: rest => fracSplit rest
  | '+' :: rest => fracSplit rest
  | l => fracSplit l

/-- Does `pandas.to_numeric(s, errors='coerce')` produce a number for
`s` (rather than `NaN`)? -/
def floatLike (s : String) : Bool :=
  match numParts s with
  | some (a, b) => !(a.isEmpty && b.isEmpty)
  | none => false

/-- Is the numeric value of `s` integral (so that a subsequent
`astype('Int64')` succeeds rather than raising)? -/
def integralFloat (s : String) : Bool :=
  match numParts s with
  | some (a, b) => !(a.isEmpty && b.isEmpty) && b.all (· == '0')
  | none => false

/-- One cell under `pd.to_numeric(col, errors='coerce')`: numeric
literals survive, everything else becomes null. -/
def coerceNumCell (c : Cell) : Cell :=
  match c with
  | none => none
  | some s => if floatLike s then some s else none

/-- A date-like literal `YYYY-MM-DD`, optionally followed by a time —
the shapes accepted from this repository's data by `pd.to_datetime`
(a simplified model of the external parser). -/
def dateLike (s : String) : Bool :=
  match s.data with
  | y1 :: y2 :: y3 :: y4 :: '-' :: m1 :: m2 :: '-' :: d1 :: d2 :: rest =>
    (([y1, y2, y3, y4] ++ [m1, m2] ++ [d1, d2]).all isDigitCh) &&
      (rest.isEmpty || leadsWith [' '] rest)
  | _ => false

/-- One cell under `pd.to_datetime(col, errors='coerce')`. -/
def coerceDateCell (c : Cell) : Cell :=
  match c with
  | none => none
  | some s => if dateLike s then some s else none

/-- Does `astype('Int64')` succeed on the column after `to_numeric`?
It raises (`ValueError`) exactly when some surviving numeric value is
non-integral. -/
def intCastOk (col : List Cell) : Bool :=
  col.all (fun c =>
    match c with
    | none => true
    | some s => !floatLike s || integralFloat s)

/-- The whole-column coercion performed by `DataValidator.validate` for
one declared dtype.  `integer` may raise (the `astype('Int64')` step);
`float` and `datetime` coerce cell-wise; any other dtype (e.g. `string`)
leaves the column untouched. -/
def applyCol (dtype : Option String) (col : List Cell) : Except PyExc (List Cell) :=
  match dtype with
  | some "integer" =>
    if intCastOk col then Except.ok (col.map coerceNumCell) else Except.error PyExc.valueErr
  | some "float" => Except.ok (col.map coerceNumCell)
  | some "datetime" => Except.ok (col.map coerceDateCell)
  | _ => Except.ok col

/-- Does the column contain a null? (`col.isna().any()`) -/
def hasNull (col : List Cell) : Bool := col.any Option.isNone

namespace DataValidator

/-- The per-column loop of `DataValidator.validate`: walk the schema's
column specs in order; skip specs absent from the DataFrame; coerce the
column in place; accumulate the critical flag when a non-nullable column
contains a null after coercion. -/
def validateLoop : List (String × ColSpec) → PandasDF → Bool → Except PyExc (Option PandasDF)
  | [], df, crit => Except.ok (if crit then none else some df)
  | (name, sp) :: rest, df, crit =>
    match df.getCol name with
    | none => validateLoop rest df crit
    | some col =>
      match applyCol sp.dtype col with
      | Except.error e => Except.error e
      | Except.ok col2 =>
        validateLoop rest (df.setCol name col2) (crit || (!sp.nullable && hasNull col2))

/-- `DataValidator.validate(dataframe, schema)` from
`transformation/validator.py`.  `schema.get('columns', {}).items()`
raises `AttributeError` when `columns` is a JSON list; an absent
`columns` key iterates over the empty mapping. -/
def validate (df : PandasDF) (schema : SchemaDef) : Except PyExc (Option PandasDF) :=
  match schema.columns with
  | some (ColumnsVal.strs _) => Except.error PyExc.attr
  | some (ColumnsVal.specs l) => validateLoop l df false
  | none => validateLoop [] df false

end DataValidator

/-! ### SchemaManager (`transformation/schema_manager.py`) -/

/-- `bytes.decode('utf-8')` with the single legacy fallback
`bytes.decode('big5')`; `none` when both raise. -/
def decodeFallback (big5 : List Nat → Option String) (raw : List Nat) : Option String :=
  match utf8Decode raw with
  | some cs => some (String.mk cs)
  | none => big5 raw

/-- Does the decoded (lower-cased) text match one schema's keyword list?
Empty keyword lists never match (`if not keywords: continue`); otherwise
`any(kw in decoded_content for kw in lower_keywords)`. -/
def kwMatch (decoded : String) (s : SchemaDef) : Bool :=
  !s.keywords.isEmpty && s.keywords.any (fun kw => strOccurs (pyLower kw) decoded)

/-- The registration-order walk of
`SchemaManager.identify_schema_from_content`: the first schema whose
keyword list matches wins. -/
def identifyScan (decoded : String) : List (String × SchemaDef) → Option String
  | [] => none
  | (n, s) :: rest =>
    if s.keywords.isEmpty then identifyScan decoded rest
    else if s.keywords.any (fun kw => strOccurs (pyLower kw) decoded) then some n
    else identifyScan decoded rest

namespace SchemaManager

/-- `SchemaManager.identify_schema_from_content(raw_content)` from
`transformation/schema_manager.py`.  The registry `schemas` is the
ordered name → definition mapping loaded from JSON; `big5` is the
external big5 codec.  Decode with UTF-8 then big5, lower-case, return
`None` when the registry or the decoded text is empty
(`if not self.schemas or not decoded_content`), else scan in
registration order. -/
def identify_schema_from_content (big5 : List Nat → Option String)
    (schemas : List (String × SchemaDef)) (raw_content : List Nat) : Option String :=
  match decodeFallback big5 raw_content with
  | none => none
  | some t =>
    let decoded := pyLower t
    if schemas.isEmpty || decoded.isEmpty then none
    else identifyScan decoded schemas

end SchemaManager

/-! ### ManifestManager (`ingestion/manifest.py`) -/

/-- One row of the `file_manifest` table as created by
`ManifestManager._initialize_schema` (timestamps are opaque strings;
`datetime.now()` is external). -/
structure ManifestRow where
  file_hash : String
  source_path : String
  registration_timestamp : String
  status : String
  deriving DecidableEq

/-- The column names of the `file_manifest` table created by
`ManifestManager._initialize_schema`. -/
def manifestTableColumns : List String :=
  ["file_hash", "source_path", "registration_timestamp", "status"]

namespace ManifestManager

/-- `ManifestManager.hash_exists(file_hash)`:
`SELECT COUNT(*) FROM file_manifest WHERE file_hash = ?` compared to 0. -/
def hash_exists (m : List ManifestRow) (file_hash : String) : Bool :=
  0 < (m.filter (fun r => r.file_hash == file_hash)).length

/-- `ManifestManager.register_file(file_hash, source_path)`: an `INSERT`
into a table whose primary key is `file_hash`, so the engine raises a
`duckdb.ConstraintException` exactly when the hash is already present;
the method re-raises it.  The row's timestamp (`datetime.now()`) is
modelled as the constant `"t0"`. -/
def register_file (m : List ManifestRow) (file_hash source_path : String) :
    Except PyExc (List ManifestRow) :=
  if m.any (fun r => r.file_hash == file_hash) then Except.error PyExc.constraint
  else Except.ok (m ++ [⟨file_hash, source_path, "t0", "registered"⟩])

/-- `ManifestManager.update_status(file_hash, new_status)`: an SQL
`UPDATE ... WHERE file_hash = ?`; a missing hash updates nothing, and the
method swallows every exception, so it is total. -/
def update_status (m : List ManifestRow) (file_hash new_status : String) :
    List ManifestRow :=
  m.map (fun r => if r.file_hash == file_hash then { r with status := new_status } else r)

/-- `ManifestManager.get_file_status(file_hash)`: `SELECT status ...
fetchone()`, i.e. the first matching row's status. -/
def get_file_status (m : List ManifestRow) (file_hash : String) : Option String :=
  (m.find? (fun r => r.file_hash == file_hash)).map ManifestRow.status

end ManifestManager

/-! ### RawLake reader and loader -/

namespace RawLakeReader

/-- `RawLakeReader.get_raw_content(file_hash)`: `SELECT raw_content FROM
raw_files WHERE file_hash = ? ... fetchone()`; a found row is returned
even when the blob is empty (`if result:` is true for a one-element
tuple), a missing row or database error yields `None`. -/
def get_raw_content (lake : List (String × List Nat)) (file_hash : String) :
    Option (List Nat) :=
  (lake.find? (fun p => p.1 == file_hash)).map Prod.snd

end RawLakeReader

namespace RawLakeLoader

/-- `RawLakeLoader.save_file(file_path, file_hash)`: reads the file's
bytes (passed here directly as `content`) and executes `INSERT INTO
raw_files VALUES (?, ?)` against a table whose primary key is
`file_hash`, so a duplicate hash raises a constraint error. -/
def save_file (lake : List (String × List Nat)) (content : List Nat)
    (file_hash : String) : Except PyExc (List (String × List Nat)) :=
  if lake.any (fun p => p.1 == file_hash) then Except.error PyExc.constraint
  else Except.ok (lake ++ [(file_hash, content)])

end RawLakeLoader

/-! ### TransformationPipeline (`transformation/pipeline.py`) -/

/-- The column list of the `SELECT` executed by
`TransformationPipeline.find_pending_files`.  Note the second column:
the query asks for `file_path`, while the ingestion-side manifest table
(see `manifestTableColumns`) names that column `source_path`. -/
def findPendingSelectColumns : List String :=
  ["file_hash", "file_path", "status", "registration_timestamp"]

/-- Projection of a manifest row onto one referenced column name;
`none` when the table has no such column. -/
def ManifestRow.getField (r : ManifestRow) (col : String) : Option String :=
  if col == "file_hash" then some r.file_hash
  else if col == "source_path" then some r.source_path
  else if col == "registration_timestamp" then some r.registration_timestamp
  else if col == "status" then some r.status
  else none

/-- Executing a `SELECT cols FROM file_manifest WHERE status = ?`
against the manifest table: the engine's binder rejects the statement
(a `duckdb.Error`) when a referenced column does not exist in the table;
otherwise it returns the projected rows as name/value pairs. -/
def execManifestSelect (m : List ManifestRow) (cols : List String)
    (statusFilter : String) : Except PyExc (List (List (String × String))) :=
  if cols.all (fun c => manifestTableColumns.contains c) then
    Except.ok ((m.filter (fun r => r.status == statusFilter)).map
      (fun r => cols.filterMap (fun c => (r.getField c).map (fun v => (c, v)))))
  else Except.error PyExc.duck

namespace TransformationPipeline

/-- `TransformationPipeline.find_pending_files()`: run the `SELECT ...
WHERE status = 'loaded_to_raw_lake'` and build one dictionary per row;
any `duckdb.Error` is caught and an empty list returned. -/
def find_pending_files (m : List ManifestRow) : List (List (String × String)) :=
  match execManifestSelect m findPendingSelectColumns "loaded_to_raw_lake" with
  | Except.ok rows => rows
  | Except.error _ => []

end TransformationPipeline

/-- The call `self.processed_loader.load_dataframe(validated_df,
table_name)` in `TransformationPipeline.run` passes two arguments, but
`ProcessedDBLoader.load_dataframe` declares three required parameters
`(dataframe, table_name, schema_definition)`; in Python the call raises
`TypeError` before the method body runs. -/
def loadDataframeCallInRun (_validated_df : PandasDF) (_table_name : String) :
    Except PyExc Unit :=
  Except.error PyExc.typeErr

/-- The outcome of processing one pending file inside
`TransformationPipeline.run`: either a manifest status written for the
file, or an exception that escapes the per-file code (no handler in the
loop covers it). -/
inductive StepResult where
  | status (s : String)
  | escaped (e : PyExc)
  deriving DecidableEq

/-- The status recorded by a `StepResult`, if any. -/
def StepResult.statusOf? : StepResult → Option String
  | StepResult.status s => some s
  | StepResult.escaped _ => none

namespace TransformationPipeline

/-- The per-file body of `TransformationPipeline.run` (pipeline.py lines
120-184): read raw content, identify a schema, look its definition up,
parse, validate, and load, recording the corresponding manifest status at
each failure; only the load call sits in a `try`/`except`, so an
exception raised by the validator escapes. -/
def processFile (big5 : List Nat → Option String)
    (schemas : List (String × SchemaDef)) (lake : List (String × List Nat))
    (file_hash : String) : StepResult :=
  match RawLakeReader.get_raw_content lake file_hash with
  | none => StepResult.status "parse_error_no_content"
  | some raw_content =>
    match SchemaManager.identify_schema_from_content big5 schemas raw_content with
    | none => StepResult.status "parse_error_schema_not_identified"
    | some schema_name =>
      match (schemas.find? (fun p => p.1 == schema_name)).map Prod.snd with
      | none => StepResult.status "parse_error_schema_missing"
      | some schema_definition =>
        match DataParser.parse big5 raw_content schema_definition with
        | none => StepResult.status "parse_error_parser_failed"
        | some dataframe =>
          match DataValidator.validate dataframe schema_definition with
          | Except.error e => StepResult.escaped e
          | Except.ok none => StepResult.status "validation_error"
          | Except.ok (some validated_df) =>
            if 0 < dataframe.rowCount && validated_df.rowCount == 0 then
              StepResult.status "validation_error"
            else
              match loadDataframeCallInRun validated_df
                  (schema_definition.table_name.getD schema_name) with
              | Except.ok _ => StepResult.status "processed"
              | Except.error _ => StepResult.status "load_error"

/-- The loop of `TransformationPipeline.run` over the pending files
(`file_hash`/`file_path` pairs): per-file statuses are written through
`ManifestManager.update_status`; an escaped exception aborts the loop
(the `finally:` block only closes connections). -/
def runLoop (big5 : List Nat → Option String)
    (schemas : List (String × SchemaDef)) (lake : List (String × List Nat)) :
    List (String × String) → List ManifestRow → List ManifestRow × Option PyExc
  | [], m => (m, none)
  | f :: fs, m =>
    match processFile big5 schemas lake f.1 with
    | StepResult.status s =>
      runLoop big5 schemas lake fs (ManifestManager.update_status m f.1 s)
    | StepResult.escaped e => (m, some e)

end TransformationPipeline

/-! ### IngestionPipeline (`ingestion/pipeline.py`, `ingestion/scanner.py`) -/

/-- The two persistent stores populated by ingestion. -/
structure IngestState where
  manifest : List ManifestRow
  rawLake : List (String × List Nat)
  deriving DecidableEq

/-- The `scanned`/`added`/`skipped` counters of `IngestionPipeline.run`. -/
structure IngestCounts where
  scanned : Nat
  added : Nat
  skipped : Nat
  deriving DecidableEq

/-- `FileScanner.scan_directory`: a directory is a list of
(path, content) pairs in traversal order; the scanner yields
`(sha256(content), path)` for each regular file.  The hash function is
the external `hashlib.sha256` hexdigest, passed as the parameter
`hash`. -/
def FileScanner.scan_directory (hash : List Nat → String)
    (dir : List (String × List Nat)) : List (String × String) :=
  dir.map (fun pc => (hash pc.2, pc.1))

namespace IngestionPipeline

/-- The loop of `IngestionPipeline.run` over the scanned files: skip and
count when the hash already exists, otherwise register the file, save its
bytes to the raw lake, and mark it `loaded_to_raw_lake`.  Any exception
aborts the whole run (`except Exception: ... return`), leaving the
partial state and counters. -/
def runLoop (hash : List Nat → String) :
    List (String × List Nat) → IngestState → IngestCounts →
      IngestState × IngestCounts × Option PyExc
  | [], st, c => (st, c, none)
  | (path, content) :: fs, st, c =>
    let file_hash := hash content
    let c1 : IngestCounts := { c with scanned := c.scanned + 1 }
    if ManifestManager.hash_exists st.manifest file_hash then
      runLoop hash fs st { c1 with skipped := c1.skipped + 1 }
    else
      match ManifestManager.register_file st.manifest file_hash path with
      | Except.error e => (st, c1, some e)
      | Except.ok m2 =>
        match RawLakeLoader.save_file st.rawLake content file_hash with
        | Except.error e => ({ st with manifest := m2 }, c1, some e)
        | Except.ok lake2 =>
          let m3 := ManifestManager.update_status m2 file_hash "loaded_to_raw_lake"
          runLoop hash fs ⟨m3, lake2⟩ { c1 with added := c1.added + 1 }

/-- `IngestionPipeline.run()`: iterate the scan of the input directory
with zeroed counters.  The scanner yields `(hash(content), path)` pairs
and `save_file` re-reads the file's bytes; both are folded into one pass
over the directory. -/
def run (hash : List Nat → String) (dir : List (String × List Nat))
    (st : IngestState) : IngestState × IngestCounts × Option PyExc :=
  runLoop hash dir st ⟨0, 0, 0⟩

/-- A sequence of ingestion runs over (possibly different) directories,
starting from empty stores. -/
def multiRun (hash : List Nat → String)
    (dirs : List (List (String × List Nat))) : IngestState :=
  dirs.foldl (fun st d => (run hash d st).1) ⟨[], []⟩

end IngestionPipeline

/-! ### ProcessedDBLoader (`transformation/processed_loader.py`)

`load_dataframe` drives a sequence of calls into the external engine
(DuckDB / pandas `to_sql`).  Each call site is named by `LCall`; the
engine's behaviour at each site — success (with the fetched row-found
flag for the table-existence probe) or a raised exception — is supplied
by an oracle `LCall → LResp`, and the registered-view set is the state
the claim about scoped-resource discipline is about. -/

/-- The external calls made by `ProcessedDBLoader.load_dataframe`, in
source order: `to_sql` (append mode, line 62), `con.register` (line 68),
the table-existence probe (line 100), `CREATE TABLE ... AS SELECT`
(line 111), the two `CREATE TABLE IF NOT EXISTS` statements (lines 144
and 186), `ALTER TABLE ADD PRIMARY KEY` (line 194), the post-create
probe (line 201), the upsert (line 213), and the four `unregister` call
sites (success path line 216, empty-columns path line 80, and the two
handlers at lines 225 and 236). -/
inductive LCall where
  | toSqlAppend
  | reg
  | tblExists
  | createAs
  | createIfne1
  | createIfne2
  | alterPK
  | postSelect
  | upsert
  | unregMain
  | unregEmptyCols
  | unregH1
  | unregH3
  deriving DecidableEq

/-- The engine's response at one call site: success (`found` is the
row-found flag, only meaningful for the table-existence probe) or a
raised exception. -/
inductive LResp where
  | ok (found : Bool)
  | raise (e : PyExc)
  deriving DecidableEq

/-- The observable outcome of a `load_dataframe` call: the registered
views left behind and the exception propagated to the caller, if any. -/
structure LoadOutcome where
  views : List String
  raised : Option PyExc
  deriving DecidableEq

/-- An `unregister` call wrapped in `try: ... except duckdb.Error: pass`
(the pattern of both exception handlers): success removes the view, a
DuckDB error is swallowed, any other exception escapes in place of the
original one. -/
def tryUnregSwallowDuck (oracle : LCall → LResp) (site : LCall) (view : String)
    (views : List String) : List String × Option PyExc :=
  match oracle site with
  | LResp.ok _ => (views.erase view, none)
  | LResp.raise e => if e.isDuck then (views, none) else (views, some e)

namespace ProcessedDBLoader

/-- The `except` clauses of `load_dataframe`, in source order:
`duckdb.Error` (attempt to unregister, swallowing only DuckDB errors,
then re-raise), `AttributeError` (re-raise with **no** cleanup), and the
generic `Exception` handler (same cleanup attempt as the first, then
re-raise).  `tv` is `temp_view_name`, still `None` when the exception
was raised before line 67. -/
def handleExc (oracle : LCall → LResp) (tv : Option String) (views : List String)
    (e : PyExc) : LoadOutcome :=
  if e.isDuck then
    match tv with
    | none => ⟨views, some e⟩
    | some v =>
      match tryUnregSwallowDuck oracle LCall.unregH1 v views with
      | (vs, none) => ⟨vs, some e⟩
      | (vs, some e2) => ⟨vs, some e2⟩
  else if e == PyExc.attr then ⟨views, some PyExc.attr⟩
  else
    match tv with
    | none => ⟨views, some e⟩
    | some v =>
      match tryUnregSwallowDuck oracle LCall.unregH3 v views with
      | (vs, none) => ⟨vs, some e⟩
      | (vs, some e2) => ⟨vs, some e2⟩

/-- The tail of the upsert path (lines 207-218): execute the
insert-with-conflict-resolution statement, then unregister the view. -/
def loadFinal (oracle : LCall → LResp) (tv : String) (views : List String) :
    LoadOutcome :=
  match oracle LCall.upsert with
  | LResp.raise e => handleExc oracle (some tv) views e
  | LResp.ok _ =>
    match oracle LCall.unregMain with
    | LResp.ok _ => ⟨views.erase tv, none⟩
    | LResp.raise e => handleExc oracle (some tv) views e

/-- The `columns_with_types` list of lines 136-141: the schema's
`columns` mapping restricted to columns present in the DataFrame; empty
when `columns` is missing or not a mapping. -/
def columnsWithTypes (df : PandasDF) (schema : SchemaDef) : List (String × ColSpec) :=
  match schema.columns with
  | some (ColumnsVal.specs l) => l.filter (fun p => (df.cols.map Prod.fst).contains p.1)
  | _ => []

/-- The table-creation branch (lines 102-202), entered when the probe
found no table: create an empty table from the view, then — when the
schema's `columns` mapping contributes typed column definitions for
columns present in the DataFrame — re-create with explicit definitions,
attempt the `ALTER TABLE ADD PRIMARY KEY` retrofit (only `duckdb.Error`
is swallowed there), and run the post-create probe. -/
def createBranch (oracle : LCall → LResp) (df : PandasDF) (schema : SchemaDef)
    (tv : String) (views : List String) : LoadOutcome :=
  match oracle LCall.createAs with
  | LResp.raise e => handleExc oracle (some tv) views e
  | LResp.ok _ =>
    if (columnsWithTypes df schema).isEmpty then
      match oracle LCall.createIfne1 with
      | LResp.raise e => handleExc oracle (some tv) views e
      | LResp.ok _ => loadFinal oracle tv views
    else
      match oracle LCall.createIfne2 with
      | LResp.raise e => handleExc oracle (some tv) views e
      | LResp.ok _ =>
        match oracle LCall.alterPK with
        | LResp.raise e =>
          if e.isDuck then
            match oracle LCall.postSelect with
            | LResp.raise e2 => handleExc oracle (some tv) views e2
            | LResp.ok _ => loadFinal oracle tv views
          else handleExc oracle (some tv) views e
        | LResp.ok _ =>
          match oracle LCall.postSelect with
          | LResp.raise e2 => handleExc oracle (some tv) views e2
          | LResp.ok _ => loadFinal oracle tv views

/-- `ProcessedDBLoader.load_dataframe(dataframe, table_name,
schema_definition)`: the empty-DataFrame early return, the append path
when no unique key is declared, and otherwise the upsert path —
register the transient view `temp_view_<table_name>`, ensure the target
table, upsert, and unregister.  `v0` is the set of views registered on
the connection before the call. -/
def load_dataframe (oracle : LCall → LResp) (df : PandasDF) (table_name : String)
    (schema : SchemaDef) (v0 : List String) : LoadOutcome :=
  if df.isEmptyDF then ⟨v0, none⟩
  else
    match schema.unique_key with
    | none =>
      match oracle LCall.toSqlAppend with
      | LResp.ok _ => ⟨v0, none⟩
      | LResp.raise e => handleExc oracle none v0 e
    | some [] =>
      match oracle LCall.toSqlAppend with
      | LResp.ok _ => ⟨v0, none⟩
      | LResp.raise e => handleExc oracle none v0 e
    | some (_ :: _) =>
      let tv := "temp_view_" ++ table_name
      match oracle LCall.reg with
      | LResp.raise e => handleExc oracle (some tv) v0 e
      | LResp.ok _ =>
        let views := v0 ++ [tv]
        if (df.cols.map Prod.fst).isEmpty then
          match oracle LCall.unregEmptyCols with
          | LResp.ok _ => ⟨views.erase tv, none⟩
          | LResp.raise e => handleExc oracle (some tv) views e
        else
          match oracle LCall.tblExists with
          | LResp.raise e => handleExc oracle (some tv) views e
          | LResp.ok found =>
            if found then loadFinal oracle tv views
            else createBranch oracle df schema tv views

end ProcessedDBLoader

/-- The joint invariant of the two ingestion stores: each keyed by
unique hashes, and holding the same hash set (every registered file's
bytes were saved, and vice versa). -/
def IngestInv (st : IngestState) : Prop :=
  (st.manifest.map ManifestRow.file_hash).Nodup ∧
  (st.rawLake.map Prod.fst).Nodup ∧
  ∀ h, h ∈ st.rawLake.map Prod.fst ↔ h ∈ st.manifest.map ManifestRow.file_hash

/-! ### Concrete fixtures used by the claim theorems -/

/-- The external big5 codec instantiated as "never decodes"; every
concrete input below is valid UTF-8, so the fallback is never consulted. -/
def noBig5 : List Nat → Option String := fun _ => none

/-- The §8 scenario schema: keyword `ok_data_file`, one declared leading
row to skip, and the typed `columns` mapping `{id: int, name: string,
value: float}` of the schema-registry persisted form. -/
def okScenarioSchema : SchemaDef :=
  { keywords := ["ok_data_file"]
    encoding := some "utf-8"
    delimiter := some ","
    csv_skip_rows := some 1
    columns := some (ColumnsVal.specs
      [("id", { dtype := some "integer" }),
       ("name", { dtype := some "string" }),
       ("value", { dtype := some "float" })])
    table_name := some "ok_table" }

/-- The §8 scenario raw bytes. -/
def okScenarioBytes : List Nat := strToBytes "ok_data_file\n1,Alice,100.5"

/-- A manifest produced by the ingestion side's `ManifestManager`: one
file registered and then marked `loaded_to_raw_lake`. -/
def manifestWithPending : List ManifestRow :=
  match ManifestManager.register_file [] "hash1" "/data/a.txt" with
  | Except.ok m => ManifestManager.update_status m "hash1" "loaded_to_raw_lake"
  | Except.error _ => []

/-- The schema of the repository's own `csv_skip_rows` parser tests
(`tests/v16/transformation/test_parser.py`), declaring `n` leading rows
to skip. -/
def skipRowsSchema (n : Nat) : SchemaDef :=
  { encoding := some "utf-8"
    delimiter := some ","
    columns := some (ColumnsVal.strs ["col_a", "col_b", "col_c"])
    csv_skip_rows := some n }

/-- The four-line CSV content of those tests (one header line plus three
data lines). -/
def skipRowsBytes : List Nat :=
  strToBytes
    "header1,header2,header3\ndata1_1,data1_2,data1_3\ndata2_1,data2_2,data2_3\ndata3_1,data3_2,data3_3\n"

/-- An engine behaviour under which `load_dataframe`'s upsert statement
raises an `AttributeError` (the exception kind whose handler performs no
cleanup); the table-existence probe finds the table, every other call
succeeds. -/
def attrLeakOracle : LCall → LResp
  | LCall.upsert => LResp.raise PyExc.attr
  | LCall.tblExists => LResp.ok true
  | _ => LResp.ok false

/-- A one-row, one-column DataFrame for the loader theorems. -/
def upsertDF : PandasDF := ⟨[("id", [some "1"])]⟩

/-- A schema in upsert mode (non-empty `unique_key`). -/
def upsertSchema : SchemaDef :=
  { unique_key := some ["id"]
    columns := some (ColumnsVal.specs
      [("id", { dtype := some "integer", nullable := false, db_type := some "INTEGER" })]) }

/-- Two registered schemas sharing the keyword `alpha`; used to witness
the registration-order tie break. -/
def tieSchemas : List (String × SchemaDef) :=
  [("first_schema", { keywords := ["alpha"] }),
   ("second_schema", { keywords := ["beta", "alpha"] })]

/-- The same registry with the second schema's keyword list reordered. -/
def tieSchemasPermuted : List (String × SchemaDef) :=
  [("first_schema", { keywords := ["alpha"] }),
   ("second_schema", { keywords := ["alpha", "beta"] })]

/-- Two schemas whose keyword lists contain the empty string: every text,
including the empty one, contains their keywords as substrings. -/
def emptyKwSchemas : List (String × SchemaDef) :=
  [("schema_a", { keywords := [""] }),
   ("schema_b", { keywords := [""] })]

/-- Column specs with a non-nullable integer column, for the validator
witness. -/
def passSpecs : List (String × ColSpec) :=
  [("id", { dtype := some "integer", nullable := false }),
   ("name", { dtype := some "string" })]

/-- A schema wrapping `passSpecs`. -/
def passSchema : SchemaDef := { columns := some (ColumnsVal.specs passSpecs) }

/-- A DataFrame that passes validation against `passSpecs` (the nullable
`name` column may contain a null, the non-nullable `id` may not). -/
def passDF : PandasDF :=
  ⟨[("id", [some "1", some "2"]), ("name", [some "Alice", none])]⟩

/-- A concrete ASCII-injective stand-in for the sha256 hexdigest, used
only to witness the ingestion theorems (they hold for every hash
function). -/
def asciiHash (b : List Nat) : String := String.mk (b.map Char.ofNat)

/-- A two-file directory whose files have byte-identical content. -/
def dupDir : List (String × List Nat) :=
  [("a.txt", strToBytes "hello"), ("b.txt", strToBytes "hello")]

/-- Transformation-pipeline fixtures for the isolation witness: one
registered schema, a raw lake holding only the second file's bytes (which
match no schema), and two pending files. -/
def isoSchemas : List (String × SchemaDef) :=
  [("some_schema", { keywords := ["magic_word"] })]

/-- Raw lake for the isolation witness: no blob for `hash_a`, an
unmatchable blob for `hash_b`. -/
def isoLake : List (String × List Nat) := [("hash_b", strToBytes "nothing relevant")]

/-- The pending queue for the isolation witness. -/
def isoFiles : List (String × String) := [("hash_a", "/in/a.csv"), ("hash_b", "/in/b.csv")]

/-- The manifest backing the isolation witness. -/
def isoManifest : List ManifestRow :=
  [⟨"hash_a", "/in/a.csv", "t0", "loaded_to_raw_lake"⟩,
   ⟨"hash_b", "/in/b.csv", "t0", "loaded_to_raw_lake"⟩]

/-- A single non-nullable float column spec, for the fail-closed witness. -/
def badSpecs : List (String × ColSpec) :=
  [("value", { dtype := some "float", nullable := false })]

/-- A schema wrapping `badSpecs`. -/
def badSchema : SchemaDef := { columns := some (ColumnsVal.specs badSpecs) }

/-- A DataFrame whose `value` cell coerces to null (not numeric), so the
non-nullable column acquires a coercion-induced null. -/
def badDF : PandasDF := ⟨[("value", [some "x"])]⟩

/-! ### Claim theorems -/

/-- C1.  The §8 scenario file (`"ok_data_file\n1,Alice,100.5"` against the
schema with keywords `["ok_data_file"]`, skip_rows 1 and the typed columns
mapping) does **not** end with manifest status `processed`: the per-file
body of `TransformationPipeline.run` records
`parse_error_parser_failed`, because `DataParser.parse` rejects the
mapping-valued `columns` of the schema registry (it requires a JSON list);
moreover even a file that survived validation could never be loaded, since
`run` invokes `load_dataframe` with two arguments against a
three-parameter signature, so the call raises `TypeError` and the status
becomes `load_error`. -/
theorem scenario_file_ends_parse_error :
    TransformationPipeline.processFile noBig5 [("ok_schema", okScenarioSchema)]
        [("h1", okScenarioBytes)] "h1" = StepResult.status "parse_error_parser_failed" ∧
    StepResult.status "parse_error_parser_failed" ≠ StepResult.status "processed" ∧
    (∀ df tn, loadDataframeCallInRun df tn = Except.error PyExc.typeErr) := by
  exact ⟨by decide, by decide, fun _ _ => rfl⟩

/-- C2.  Against every manifest with the column layout created by the
ingestion side's `ManifestManager` (`source_path`, not `file_path`), the
transformation pipeline's `find_pending_files` returns the empty list:
its `SELECT` references the non-existent column `file_path`, the engine's
binder error is caught, and `[]` is returned — in particular the
ingestion-produced manifest `manifestWithPending`, which holds exactly
one `loaded_to_raw_lake` row, yields no pending work. -/
theorem find_pending_files_empty_on_ingestion_manifest :
    (∀ m : List ManifestRow, TransformationPipeline.find_pending_files m = []) ∧
    TransformationPipeline.find_pending_files manifestWithPending = [] ∧
    (manifestWithPending.filter (fun r => r.status == "loaded_to_raw_lake")).length = 1 := by
  refine ⟨?_, by decide, by decide⟩
  intro m
  unfold TransformationPipeline.find_pending_files execManifestSelect
  rw [if_neg (by decide)]

/-- C3.  `DataParser.parse` never drops the schema's declared leading-row
count: the parse result is independent of `csv_skip_rows` (first
conjunct), and on the repository's own skip-rows test fixture (four CSV
records, `csv_skip_rows = 4`) it returns a table over all four records —
the claim's `r − n = 0` rows would be an empty table — with the
schema-declared names assigned positionally (the "skipped" header line
appears as the first data row of column `col_a`). -/
theorem parse_ignores_declared_skip_rows :
    (∀ (big5 : List Nat → Option String) (raw : List Nat) (sch : SchemaDef) (n : Option Nat),
      DataParser.parse big5 raw { sch with csv_skip_rows := n } =
        DataParser.parse big5 raw sch) ∧
    (DataParser.parse noBig5 skipRowsBytes (skipRowsSchema 4)).map PandasDF.rowCount =
      some 4 ∧
    (DataParser.parse noBig5 skipRowsBytes (skipRowsSchema 4)).map
        (fun df => df.getCol "col_a") =
      some (some [some "header1", some "data1_1", some "data2_1", some "data3_1"]) := by
  refine ⟨fun big5 raw sch n => rfl, by decide, by decide⟩

/-- C6 counterexample.  The empty byte content decodes (under the primary
encoding) to the empty text, which contains — as a substring, exactly the
code's matching relation — the empty-string keyword of both registered
schemas `schema_a` and `schema_b`; the claim then demands the
first-registered match `schema_a`, but `identify_schema_from_content`
returns `None` (its `not decoded_content` guard fires before the scan). -/
theorem identify_empty_text_counterexample :
    decodeFallback noBig5 [] = some "" ∧
    kwMatch (pyLower "") ({ keywords := [""] } : SchemaDef) = true ∧
    emptyKwSchemas.map Prod.snd = [{ keywords := [""] }, { keywords := [""] }] ∧
    SchemaManager.identify_schema_from_content noBig5 emptyKwSchemas [] = none ∧
    (none : Option String) ≠ some "schema_a" := by
  exact ⟨by decide, by decide, by decide, by decide, by decide⟩

/-- C9 counterexample.  A `load_dataframe` call in upsert mode (non-empty
`unique_key`, non-empty DataFrame) on which the engine raises an
`AttributeError` at the upsert statement: the `except AttributeError`
handler re-raises without touching the view, so the call raises with the
transient view `temp_view_t1` still registered. -/
theorem load_dataframe_view_leak_counterexample :
    ProcessedDBLoader.load_dataframe attrLeakOracle upsertDF "t1" upsertSchema [] =
      ⟨["temp_view_t1"], some PyExc.attr⟩ ∧
    "temp_view_t1" ∈
      (ProcessedDBLoader.load_dataframe attrLeakOracle upsertDF "t1" upsertSchema []).views := by
  exact ⟨by decide, by decide⟩

/-- C10.  Zero-length content is rejected at both gates of the
transformation stage: schema identification returns `None` for empty
bytes no matter which schemas are registered, `DataParser.parse` returns
`None` for empty bytes against every schema, and a pending file whose
raw blob is empty is recorded as `parse_error_schema_not_identified` —
it can never reach validation, loading, or the `processed` status. -/
theorem empty_content_never_processed
    (big5 : List Nat → Option String) (schemas : List (String × SchemaDef))
    (schema : SchemaDef) (file_hash : String) :
    SchemaManager.identify_schema_from_content big5 schemas [] = none ∧
    DataParser.parse big5 [] schema = none ∧
    TransformationPipeline.processFile big5 schemas [(file_hash, [])] file_hash =
      StepResult.status "parse_error_schema_not_identified" := by
  have hid : SchemaManager.identify_schema_from_content big5 schemas [] = none := by
    have hdec : decodeFallback big5 [] = some "" := rfl
    have hemp : (pyLower "").isEmpty = true := rfl
    simp [SchemaManager.identify_schema_from_content, hdec, hemp]
  refine ⟨hid, rfl, ?_⟩
  have hget : RawLakeReader.get_raw_content [(file_hash, [])] file_hash = some [] := by
    simp [RawLakeReader.get_raw_content, List.find?]
  simp [TransformationPipeline.processFile, hget, hid]

/-- `hash_exists` is membership of the hash among the manifest rows. -/
lemma hash_exists_iff (m : List ManifestRow) (h : String) :
    ManifestManager.hash_exists m h = true ↔ ∃ r ∈ m, r.file_hash = h := by
  unfold ManifestManager.hash_exists
  simp [List.length_pos_iff_exists_mem, List.mem_filter]

/-- C8.  `register_file` raises the duplicate-key constraint error
exactly when the hash is already present; on success exactly one row is
appended, the hash then exists with status `registered`, and no other
hash's status is disturbed. -/
theorem register_file_duplicate_key (m : List ManifestRow) (file_hash source_path : String) :
    (ManifestManager.register_file m file_hash source_path = Except.error PyExc.constraint ↔
      ManifestManager.hash_exists m file_hash = true) ∧
    ∀ m', ManifestManager.register_file m file_hash source_path = Except.ok m' →
      m'.length = m.length + 1 ∧
      ManifestManager.hash_exists m' file_hash = true ∧
      ManifestManager.get_file_status m' file_hash = some "registered" ∧
      ∀ h', h' ≠ file_hash →
        ManifestManager.get_file_status m' h' = ManifestManager.get_file_status m h' := by
  have hany : (m.any fun r => r.file_hash == file_hash) = true ↔
      ManifestManager.hash_exists m file_hash = true := by
    rw [hash_exists_iff]
    simp [List.any_eq_true]
  constructor
  · unfold ManifestManager.register_file
    by_cases hc : (m.any fun r => r.file_hash == file_hash) = true
    · rw [if_pos hc]
      simp [hany.mp hc]
    · rw [if_neg hc]
      constructor
      · intro habs; exact absurd habs (by simp)
      · intro hex; exact absurd (hany.mpr hex) hc
  · intro m' hok
    unfold ManifestManager.register_file at hok
    by_cases hc : (m.any fun r => r.file_hash == file_hash) = true
    · rw [if_pos hc] at hok; cases hok
    · rw [if_neg hc] at hok
      cases hok
      have hnone : m.find? (fun r => r.file_hash == file_hash) = none := by
        rw [List.find?_eq_none]
        intro r hr hbe
        exact hc (List.any_eq_true.mpr ⟨r, hr, hbe⟩)
      refine ⟨by simp, ?_, ?_, ?_⟩
      · rw [hash_exists_iff]
        exact ⟨⟨file_hash, source_path, "t0", "registered"⟩, by simp, rfl⟩
      · unfold ManifestManager.get_file_status
        rw [List.find?_append, hnone]
        simp [List.find?]
      · intro h' hne
        unfold ManifestManager.get_file_status
        rw [List.find?_append]
        have hfalse : ((⟨file_hash, source_path, "t0", "registered"⟩ : ManifestRow).file_hash ==
            h') = false := by
          simp only [beq_eq_false_iff_ne, ne_eq]
          exact fun habs => hne habs.symm
        have h2 : ([(⟨file_hash, source_path, "t0", "registered"⟩ : ManifestRow)].find?
            (fun r => r.file_hash == h')) = none := by
          simp [List.find?, hfalse]
        rw [h2]
        cases m.find? (fun r => r.file_hash == h') <;> rfl

/-- The status update leaves every row's `file_hash` in place. -/
lemma updateRow_file_hash (r : ManifestRow) (h s : String) :
    (if r.file_hash == h then { r with status := s } else r).file_hash = r.file_hash := by
  split <;> rfl

/-- `update_status` does not change which hashes exist. -/
lemma update_status_hash_exists (m : List ManifestRow) (h s h' : String) :
    ManifestManager.hash_exists (ManifestManager.update_status m h s) h' =
      ManifestManager.hash_exists m h' := by
  have hlen : ((ManifestManager.update_status m h s).filter
      (fun r => r.file_hash == h')).length = (m.filter (fun r => r.file_hash == h')).length := by
    unfold ManifestManager.update_status
    rw [List.filter_map, List.length_map]
    congr 1
    apply List.filter_congr
    intro r _
    simp only [Function.comp_apply]
    split <;> rfl
  unfold ManifestManager.hash_exists
  rw [hlen]

/-- After updating hash `h` to status `s`, reading `h` back yields `s`,
provided the hash is present. -/
lemma get_file_status_update_self (m : List ManifestRow) (h s : String)
    (hex : ∃ r ∈ m, r.file_hash = h) :
    ManifestManager.get_file_status (ManifestManager.update_status m h s) h = some s := by
  induction m with
  | nil => simp at hex
  | cons r rs ih =>
    show ManifestManager.get_file_status
      ((if r.file_hash == h then { r with status := s } else r) ::
        ManifestManager.update_status rs h s) h = some s
    by_cases hc : r.file_hash = h
    · rw [if_pos (by simpa using hc)]
      unfold ManifestManager.get_file_status
      rw [List.find?_cons_of_pos _ (by simpa using hc)]
      rfl
    · have hex' : ∃ r' ∈ rs, r'.file_hash = h := by
        rcases hex with ⟨r0, hr0, hf⟩
        rcases List.mem_cons.mp hr0 with rfl | hmem
        · exact absurd hf hc
        · exact ⟨r0, hmem, hf⟩
      rw [if_neg (by simpa using hc)]
      unfold ManifestManager.get_file_status
      rw [List.find?_cons_of_neg _ (by simpa using hc)]
      exact ih hex'

/-- Updating hash `h` does not change any other hash's status. -/
lemma get_file_status_update_ne (m : List ManifestRow) (h h' s : String)
    (hne : h' ≠ h) :
    ManifestManager.get_file_status (ManifestManager.update_status m h s) h' =
      ManifestManager.get_file_status m h' := by
  induction m with
  | nil => rfl
  | cons r rs ih =>
    show ManifestManager.get_file_status
        ((if r.file_hash == h then { r with status := s } else r) ::
          ManifestManager.update_status rs h s) h' =
      ManifestManager.get_file_status (r :: rs) h'
    unfold ManifestManager.get_file_status
    by_cases hc : r.file_hash = h
    · have hc' : ¬ r.file_hash = h' := fun habs => hne (habs.symm.trans hc)
      rw [if_pos (by simpa using hc)]
      rw [List.find?_cons_of_neg _ (by simpa using hc'), List.find?_cons_of_neg _ (by simpa using hc')]
      exact ih
    · rw [if_neg (by simpa using hc)]
      by_cases hc' : r.file_hash = h'
      · rw [List.find?_cons_of_pos _ (by simpa using hc'),
          List.find?_cons_of_pos _ (by simpa using hc')]
      · rw [List.find?_cons_of_neg _ (by simpa using hc'),
          List.find?_cons_of_neg _ (by simpa using hc')]
        exact ih

/-- Files whose hash is not mentioned in the remaining queue keep
whatever status the manifest holds when the loop reaches them. -/
lemma runLoop_preserves_other (big5 : List Nat → Option String)
    (schemas : List (String × SchemaDef)) (lake : List (String × List Nat))
    (fs : List (String × String)) (m : List ManifestRow) (h : String)
    (hnotin : h ∉ fs.map Prod.fst) :
    ManifestManager.get_file_status (TransformationPipeline.runLoop big5 schemas lake fs m).1 h =
      ManifestManager.get_file_status m h := by
  induction fs generalizing m with
  | nil => rfl
  | cons f fs ih =>
    have hne : h ≠ f.1 := by
      intro habs
      exact hnotin (by simp [habs])
    have hnotin' : h ∉ fs.map Prod.fst := fun habs => hnotin (by simp [habs])
    unfold TransformationPipeline.runLoop
    cases TransformationPipeline.processFile big5 schemas lake f.1 with
    | status s =>
      simp only []
      rw [ih _ hnotin', get_file_status_update_ne _ _ _ _ hne]
    | escaped e => rfl

/-- C5.  Per-file isolation of `TransformationPipeline.run`: for every
queue of pending files each of which fails (or succeeds) with one of the
per-file outcomes that record a manifest status — missing raw content,
unidentified schema, missing schema definition, parse failure, critical
validation failure, load error — the loop finishes the whole queue with
no escaped exception, and every file's own outcome is recorded as its
manifest status. -/
theorem run_per_file_isolation (big5 : List Nat → Option String)
    (schemas : List (String × SchemaDef)) (lake : List (String × List Nat))
    (files : List (String × String)) (m : List ManifestRow)
    (hall : ∀ f ∈ files,
      (TransformationPipeline.processFile big5 schemas lake f.1).statusOf?.isSome = true)
    (hmem : ∀ f ∈ files, ManifestManager.hash_exists m f.1 = true)
    (hnd : (files.map Prod.fst).Nodup) :
    (TransformationPipeline.runLoop big5 schemas lake files m).2 = none ∧
    ∀ f ∈ files,
      ManifestManager.get_file_status
          (TransformationPipeline.runLoop big5 schemas lake files m).1 f.1 =
        (TransformationPipeline.processFile big5 schemas lake f.1).statusOf? := by
  induction files generalizing m with
  | nil => exact ⟨rfl, by simp⟩
  | cons f fs ih =>
    obtain ⟨s, hs⟩ : ∃ s, TransformationPipeline.processFile big5 schemas lake f.1 =
        StepResult.status s := by
      have := hall f (by simp)
      cases hpf : TransformationPipeline.processFile big5 schemas lake f.1 with
      | status s => exact ⟨s, rfl⟩
      | escaped e => rw [hpf] at this; cases this
    have hstep : TransformationPipeline.runLoop big5 schemas lake (f :: fs) m =
        TransformationPipeline.runLoop big5 schemas lake fs
          (ManifestManager.update_status m f.1 s) := by
      show (match TransformationPipeline.processFile big5 schemas lake f.1 with
        | StepResult.status s =>
          TransformationPipeline.runLoop big5 schemas lake fs
            (ManifestManager.update_status m f.1 s)
        | StepResult.escaped e => (m, some e)) =
        TransformationPipeline.runLoop big5 schemas lake fs
          (ManifestManager.update_status m f.1 s)
      rw [hs]
    have hnd2 : f.1 ∉ fs.map Prod.fst ∧ (fs.map Prod.fst).Nodup := by
      rw [List.map_cons] at hnd
      exact List.nodup_cons.mp hnd
    have hnotin : f.1 ∉ fs.map Prod.fst := hnd2.1
    have hnd' : (fs.map Prod.fst).Nodup := hnd2.2
    have hmem' : ∀ g ∈ fs, ManifestManager.hash_exists
        (ManifestManager.update_status m f.1 s) g.1 = true := by
      intro g hg
      rw [update_status_hash_exists]
      exact hmem g (by simp [hg])
    have hall' : ∀ g ∈ fs,
        (TransformationPipeline.processFile big5 schemas lake g.1).statusOf?.isSome = true :=
      fun g hg => hall g (by simp [hg])
    obtain ⟨ih1, ih2⟩ := ih (ManifestManager.update_status m f.1 s) hall' hmem' hnd'
    rw [hstep]
    refine ⟨ih1, ?_⟩
    intro g hg
    rcases List.mem_cons.mp hg with rfl | hgfs
    · rw [runLoop_preserves_other _ _ _ _ _ _ hnotin, hs]
      have hex : ∃ r ∈ m, r.file_hash = g.1 := (hash_exists_iff m g.1).mp (hmem g (by simp))
      rw [get_file_status_update_self _ _ _ hex]
      rfl
    · exact ih2 g hgfs

/-- `find?` only depends on the predicate's values on the list. -/
lemma find?_congrOn {α : Type} (l : List α) (p q : α → Bool)
    (h : ∀ a ∈ l, p a = q a) : l.find? p = l.find? q := by
  induction l with
  | nil => rfl
  | cons a l ih =>
    cases hp : p a with
    | true =>
      rw [List.find?_cons_of_pos _ hp, List.find?_cons_of_pos _ ((h a (by simp)).symm.trans hp)]
    | false =>
      rw [List.find?_cons_of_neg _ (by simp [hp]),
        List.find?_cons_of_neg _ (by simp [← h a (by simp), hp])]
      exact ih fun a ha => h a (by simp [ha])

/-- Replacing a column keeps the column labels. -/
lemma header_setCol (df : PandasDF) (name : String) (col : List Cell) :
    (df.setCol name col).header = df.header := by
  unfold PandasDF.setCol PandasDF.header
  simp only [List.map_map]
  apply List.map_congr_left
  intro p _
  simp only [Function.comp_apply]
  split <;> rfl

/-- Replacing one column does not affect reads of other columns. -/
lemma getCol_setCol_ne (df : PandasDF) (name name' : String) (col : List Cell)
    (hne : name' ≠ name) :
    (df.setCol name col).getCol name' = df.getCol name' := by
  unfold PandasDF.setCol PandasDF.getCol
  rw [List.find?_map]
  rw [find?_congrOn _ _ (fun p => p.1 == name')
    (by intro q _; simp only [Function.comp_apply]; split <;> rfl)]
  cases hf : df.cols.find? (fun p => p.1 == name') with
  | none => rfl
  | some a =>
    have ha : a.1 = name' := by simpa using List.find?_some hf
    have hkeep : (if a.1 == name then (a.1, col) else a) = a := by
      rw [if_neg (by simp [ha]; exact hne)]
    simp [hkeep]
    rw [if_neg (by rw [ha]; exact hne)]

/-- Reading back a replaced column (present in the DataFrame) yields the
replacement. -/
lemma getCol_setCol_self (df : PandasDF) (name : String) (col col2 : List Cell)
    (hget : df.getCol name = some col) :
    (df.setCol name col2).getCol name = some col2 := by
  unfold PandasDF.setCol PandasDF.getCol at *
  rw [List.find?_map]
  rw [find?_congrOn _ _ (fun p => p.1 == name)
    (by intro q _; simp only [Function.comp_apply]; split <;> rfl)]
  cases hf : df.cols.find? (fun p => p.1 == name) with
  | none => rw [hf] at hget; cases hget
  | some a =>
    have ha : a.1 = name := by simpa using List.find?_some hf
    simp [ha]

/-- Column coercion preserves the column's length. -/
lemma applyCol_length (dtype : Option String) (col col2 : List Cell)
    (h : applyCol dtype col = Except.ok col2) : col2.length = col.length := by
  unfold applyCol at h
  split at h
  · split at h
    · cases h; simp
    · cases h
  · cases h; simp
  · cases h; simp
  · cases h; rfl

/-- Replacing a present column with one of equal length preserves the
row count. -/
lemma rowCount_setCol (df : PandasDF) (name : String) (col col2 : List Cell)
    (hget : df.getCol name = some col) (hlen : col2.length = col.length) :
    (df.setCol name col2).rowCount = df.rowCount := by
  obtain ⟨cols⟩ := df
  unfold PandasDF.setCol PandasDF.rowCount PandasDF.getCol at *
  dsimp only at hget ⊢
  cases cols with
  | nil => simp at hget
  | cons p ps =>
    by_cases hc : (p.1 == name) = true
    · rw [@List.find?_cons_of_pos _ (fun q => q.1 == name) p ps hc] at hget
      have hcol : p.2 = col := by simpa using hget
      simp only [List.map_cons]
      rw [if_pos hc]
      simp [hlen, hcol]
    · simp only [List.map_cons]
      rw [if_neg hc]

/-- Loop equation: a spec absent from the DataFrame is skipped. -/
lemma validateLoop_cons_none (q : String × ColSpec) (rest : List (String × ColSpec))
    (df : PandasDF) (crit : Bool) (hg : df.getCol q.1 = none) :
    DataValidator.validateLoop (q :: rest) df crit =
      DataValidator.validateLoop rest df crit := by
  show (match df.getCol q.1 with
    | none => DataValidator.validateLoop rest df crit
    | some col =>
      match applyCol q.2.dtype col with
      | Except.error e => Except.error e
      | Except.ok col2 =>
        DataValidator.validateLoop rest (df.setCol q.1 col2)
          (crit || (!q.2.nullable && hasNull col2))) =
    DataValidator.validateLoop rest df crit
  rw [hg]

/-- Loop equation: a failing coercion raises out of the loop. -/
lemma validateLoop_cons_err (q : String × ColSpec) (rest : List (String × ColSpec))
    (df : PandasDF) (crit : Bool) (col : List Cell) (e : PyExc)
    (hg : df.getCol q.1 = some col) (happ : applyCol q.2.dtype col = Except.error e) :
    DataValidator.validateLoop (q :: rest) df crit = Except.error e := by
  show (match df.getCol q.1 with
    | none => DataValidator.validateLoop rest df crit
    | some col =>
      match applyCol q.2.dtype col with
      | Except.error e => Except.error e
      | Except.ok col2 =>
        DataValidator.validateLoop rest (df.setCol q.1 col2)
          (crit || (!q.2.nullable && hasNull col2))) = Except.error e
  rw [hg]
  show (match applyCol q.2.dtype col with
    | Except.error e => Except.error e
    | Except.ok col2 =>
      DataValidator.validateLoop rest (df.setCol q.1 col2)
        (crit || (!q.2.nullable && hasNull col2))) = Except.error e
  rw [happ]

/-- Loop equation: a successful coercion replaces the column and feeds
the nullability check into the critical flag. -/
lemma validateLoop_cons_some (q : String × ColSpec) (rest : List (String × ColSpec))
    (df : PandasDF) (crit : Bool) (col col2 : List Cell)
    (hg : df.getCol q.1 = some col) (happ : applyCol q.2.dtype col = Except.ok col2) :
    DataValidator.validateLoop (q :: rest) df crit =
      DataValidator.validateLoop rest (df.setCol q.1 col2)
        (crit || (!q.2.nullable && hasNull col2)) := by
  show (match df.getCol q.1 with
    | none => DataValidator.validateLoop rest df crit
    | some col =>
      match applyCol q.2.dtype col with
      | Except.error e => Except.error e
      | Except.ok col2 =>
        DataValidator.validateLoop rest (df.setCol q.1 col2)
          (crit || (!q.2.nullable && hasNull col2))) =
    DataValidator.validateLoop rest (df.setCol q.1 col2)
      (crit || (!q.2.nullable && hasNull col2))
  rw [hg]
  show (match applyCol q.2.dtype col with
    | Except.error e => Except.error e
    | Except.ok col2 =>
      DataValidator.validateLoop rest (df.setCol q.1 col2)
        (crit || (!q.2.nullable && hasNull col2))) =
    DataValidator.validateLoop rest (df.setCol q.1 col2)
      (crit || (!q.2.nullable && hasNull col2))
  rw [happ]

/-- Columns not mentioned by the remaining specs are untouched by the
validator loop. -/
lemma validateLoop_getCol_unmentioned (specs : List (String × ColSpec)) (df : PandasDF)
    (crit : Bool) (out : PandasDF) (name : String)
    (hout : DataValidator.validateLoop specs df crit = Except.ok (some out))
    (hnot : ∀ q ∈ specs, q.1 ≠ name) :
    out.getCol name = df.getCol name := by
  induction specs generalizing df crit with
  | nil =>
    unfold DataValidator.validateLoop at hout
    cases crit with
    | true => simp at hout
    | false =>
      have : df = out := by simpa using hout
      rw [this]
  | cons q rest ih =>
    cases hg : df.getCol q.1 with
    | none =>
      rw [validateLoop_cons_none q rest df crit hg] at hout
      exact ih _ _ hout (fun q' hq' => hnot q' (by simp [hq']))
    | some col =>
      cases happ : applyCol q.2.dtype col with
      | error e =>
        rw [validateLoop_cons_err q rest df crit col e hg happ] at hout
        simp at hout
      | ok col2 =>
        rw [validateLoop_cons_some q rest df crit col col2 hg happ] at hout
        have hiq := ih _ _ hout (fun q' hq' => hnot q' (by simp [hq']))
        rw [hiq, getCol_setCol_ne _ _ _ _ (fun habs => hnot q (by simp) habs.symm)]

/-- A successful validator loop started with the critical flag clear:
the flag was never raised, the labels and the row count are preserved,
and every non-nullable spec's column is null-free in the output. -/
lemma validateLoop_ok_props (specs : List (String × ColSpec)) (df : PandasDF)
    (crit : Bool) (out : PandasDF)
    (hout : DataValidator.validateLoop specs df crit = Except.ok (some out))
    (hnd : (specs.map Prod.fst).Nodup) :
    crit = false ∧ out.header = df.header ∧ out.rowCount = df.rowCount ∧
    ∀ name sp, (name, sp) ∈ specs → sp.nullable = false →
      ∀ col2, out.getCol name = some col2 → hasNull col2 = false := by
  induction specs generalizing df crit with
  | nil =>
    unfold DataValidator.validateLoop at hout
    cases crit with
    | true => simp at hout
    | false =>
      have : df = out := by simpa using hout
      subst this
      exact ⟨rfl, rfl, rfl, by simp⟩
  | cons q rest ih =>
    have hnd2 : q.1 ∉ rest.map Prod.fst ∧ (rest.map Prod.fst).Nodup := by
      rw [List.map_cons] at hnd
      exact List.nodup_cons.mp hnd
    obtain ⟨hq1, hndr⟩ := hnd2
    cases hg : df.getCol q.1 with
    | none =>
      rw [validateLoop_cons_none q rest df crit hg] at hout
      obtain ⟨hcrit, hhd, hrc, hnull⟩ := ih _ _ hout hndr
      refine ⟨hcrit, hhd, hrc, ?_⟩
      intro name sp hmem hnn col2 hcol
      rcases List.mem_cons.mp hmem with heq | hmemr
      · have hn : name = q.1 := by rw [← heq]
        have hsame : out.getCol name = df.getCol name :=
          validateLoop_getCol_unmentioned rest df _ out name hout
            (fun q' hq' habs => hq1 ((hn ▸ habs) ▸ List.mem_map_of_mem Prod.fst hq'))
        rw [hsame, hn, hg] at hcol
        cases hcol
      · exact hnull name sp hmemr hnn col2 hcol
    | some col =>
      cases happ : applyCol q.2.dtype col with
      | error e =>
        rw [validateLoop_cons_err q rest df crit col e hg happ] at hout
        simp at hout
      | ok col2' =>
        rw [validateLoop_cons_some q rest df crit col col2' hg happ] at hout
        obtain ⟨hcrit2, hhd, hrc, hnull⟩ := ih _ _ hout hndr
        obtain ⟨hcrit, hflag⟩ := Bool.or_eq_false_iff.mp hcrit2
        refine ⟨hcrit, ?_, ?_, ?_⟩
        · rw [hhd, header_setCol]
        · rw [hrc, rowCount_setCol _ _ col col2' hg (applyCol_length _ _ _ happ)]
        · intro name sp hmem hnn col2 hcol
          rcases List.mem_cons.mp hmem with heq | hmemr
          · have hn : name = q.1 := by rw [← heq]
            have hsp : sp = q.2 := by rw [← heq]
            have hfix : out.getCol name = some col2' := by
              rw [validateLoop_getCol_unmentioned rest _ _ out name hout
                (fun q' hq' habs => hq1 ((hn ▸ habs) ▸ List.mem_map_of_mem Prod.fst hq'))]
              rw [hn]
              exact getCol_setCol_self df q.1 col col2' hg
            rw [hfix] at hcol
            cases hcol
            have hb : (!q.2.nullable) = true := by rw [← hsp, hnn]; rfl
            rw [hb] at hflag
            simpa using hflag
          · exact hnull name sp hmemr hnn col2 hcol

/-- Once the critical flag is set, a loop whose remaining coercions all
succeed ends in the absent result. -/
lemma validateLoop_crit_none (specs : List (String × ColSpec)) (df : PandasDF)
    (hnd : (specs.map Prod.fst).Nodup)
    (hco : ∀ q ∈ specs, ∀ col, df.getCol q.1 = some col →
      ∃ c2, applyCol q.2.dtype col = Except.ok c2) :
    DataValidator.validateLoop specs df true = Except.ok none := by
  induction specs generalizing df with
  | nil => rfl
  | cons q rest ih =>
    have hnd2 : q.1 ∉ rest.map Prod.fst ∧ (rest.map Prod.fst).Nodup := by
      rw [List.map_cons] at hnd
      exact List.nodup_cons.mp hnd
    obtain ⟨hq1, hndr⟩ := hnd2
    cases hg : df.getCol q.1 with
    | none =>
      rw [validateLoop_cons_none q rest df true hg]
      exact ih df hndr (fun q' hq' => hco q' (by simp [hq']))
    | some col =>
      obtain ⟨c2, happ⟩ := hco q (by simp) col hg
      rw [validateLoop_cons_some q rest df true col c2 hg happ]
      have hco' : ∀ q' ∈ rest, ∀ col', (df.setCol q.1 c2).getCol q'.1 = some col' →
          ∃ c2', applyCol q'.2.dtype col' = Except.ok c2' := by
        intro q' hq' col' hcol'
        have hne : q'.1 ≠ q.1 := fun habs => hq1 (habs ▸ List.mem_map_of_mem Prod.fst hq')
        rw [getCol_setCol_ne _ _ _ _ hne] at hcol'
        exact hco q' (by simp [hq']) col' hcol'
      simpa [Bool.true_or] using ih (df.setCol q.1 c2) hndr hco'

/-- A loop that will meet a coercion-induced (or original) null in a
non-nullable column — and whose coercions all succeed — ends in the
absent result, from any starting flag. -/
lemma validateLoop_bad_none (specs : List (String × ColSpec)) (df : PandasDF) (crit : Bool)
    (hnd : (specs.map Prod.fst).Nodup)
    (hco : ∀ q ∈ specs, ∀ col, df.getCol q.1 = some col →
      ∃ c2, applyCol q.2.dtype col = Except.ok c2)
    (hbad : ∃ name sp col col2, (name, sp) ∈ specs ∧ sp.nullable = false ∧
      df.getCol name = some col ∧ applyCol sp.dtype col = Except.ok col2 ∧
      hasNull col2 = true) :
    DataValidator.validateLoop specs df crit = Except.ok none := by
  induction specs generalizing df crit with
  | nil => simp at hbad
  | cons q rest ih =>
    have hnd2 : q.1 ∉ rest.map Prod.fst ∧ (rest.map Prod.fst).Nodup := by
      rw [List.map_cons] at hnd
      exact List.nodup_cons.mp hnd
    obtain ⟨hq1, hndr⟩ := hnd2
    obtain ⟨name, sp, col, col2, hmem, hnn, hget, happ, hnul⟩ := hbad
    have hco' : ∀ (c2 : List Cell), ∀ q' ∈ rest, ∀ col',
        (df.setCol q.1 c2).getCol q'.1 = some col' →
        ∃ c2', applyCol q'.2.dtype col' = Except.ok c2' := by
      intro c2 q' hq' col' hcol'
      have hne : q'.1 ≠ q.1 := fun habs => hq1 (habs ▸ List.mem_map_of_mem Prod.fst hq')
      rw [getCol_setCol_ne _ _ _ _ hne] at hcol'
      exact hco q' (by simp [hq']) col' hcol'
    rcases List.mem_cons.mp hmem with heq | hmemr
    · have hn : name = q.1 := by rw [← heq]
      have hsp : sp = q.2 := by rw [← heq]
      have hget2 : df.getCol q.1 = some col := hn ▸ hget
      have happ2 : applyCol q.2.dtype col = Except.ok col2 := hsp ▸ happ
      rw [validateLoop_cons_some q rest df crit col col2 hget2 happ2]
      have hflag : (crit || (!q.2.nullable && hasNull col2)) = true := by
        have h1 : (!q.2.nullable) = true := by rw [← hsp, hnn]; rfl
        simp [h1, hnul]
      rw [hflag]
      exact validateLoop_crit_none rest (df.setCol q.1 col2) hndr (hco' col2)
    · cases hg : df.getCol q.1 with
      | none =>
        rw [validateLoop_cons_none q rest df crit hg]
        exact ih _ _ hndr (fun q' hq' => hco q' (by simp [hq']))
          ⟨name, sp, col, col2, hmemr, hnn, hget, happ, hnul⟩
      | some col0 =>
        obtain ⟨c02, happ0⟩ := hco q (by simp) col0 hg
        rw [validateLoop_cons_some q rest df crit col0 c02 hg happ0]
        have hne : name ≠ q.1 := by
          intro habs
          exact hq1 (habs ▸ List.mem_map_of_mem Prod.fst hmemr)
        have hget' : (df.setCol q.1 c02).getCol name = some col := by
          rw [getCol_setCol_ne df q.1 name c02 hne]
          exact hget
        exact ih _ _ hndr (hco' c02)
          ⟨name, sp, col, col2, hmemr, hnn, hget', happ, hnul⟩

/-- C4.  The validator's fail-closed law: whenever, after type coercion,
some column declared non-nullable and present in the table contains a
null (originally null or coercion-induced), `validate` returns absent
(first conjunct, under the proviso that the per-column coercions
themselves succeed); and `validate` never returns a partial or truncated
table — a present result keeps the column labels, the row count, and is
null-free in every non-nullable declared column (second conjunct). -/
theorem validate_fail_closed (df : PandasDF) (specs : List (String × ColSpec))
    (schema : SchemaDef) (hcols : schema.columns = some (ColumnsVal.specs specs))
    (hnd : (specs.map Prod.fst).Nodup) :
    ((∀ q ∈ specs, ∀ col, df.getCol q.1 = some col →
        ∃ c2, applyCol q.2.dtype col = Except.ok c2) →
      (∃ name sp col col2, (name, sp) ∈ specs ∧ sp.nullable = false ∧
        df.getCol name = some col ∧ applyCol sp.dtype col = Except.ok col2 ∧
        hasNull col2 = true) →
      DataValidator.validate df schema = Except.ok none) ∧
    (∀ out, DataValidator.validate df schema = Except.ok (some out) →
      out.header = df.header ∧ out.rowCount = df.rowCount ∧
      ∀ name sp, (name, sp) ∈ specs → sp.nullable = false →
        ∀ col2, out.getCol name = some col2 → hasNull col2 = false) := by
  constructor
  · intro hco hbad
    unfold DataValidator.validate
    rw [hcols]
    exact validateLoop_bad_none specs df false hnd hco hbad
  · intro out hout
    unfold DataValidator.validate at hout
    rw [hcols] at hout
    obtain ⟨_, hhd, hrc, hnull⟩ := validateLoop_ok_props specs df false out hout hnd
    exact ⟨hhd, hrc, hnull⟩

/-- Witness for C4 at concrete fixtures: the passing DataFrame keeps its
labels and row count, and the fixture with a coercion-induced null in the
non-nullable `value` column is rejected with the absent result. -/
theorem validate_fail_closed_witness :
    (∃ out, DataValidator.validate passDF passSchema = Except.ok (some out) ∧
      out.header = passDF.header ∧ out.rowCount = passDF.rowCount) ∧
    DataValidator.validate badDF badSchema = Except.ok none := by
  constructor
  · refine ⟨⟨[("id", [some "1", some "2"]), ("name", [some "Alice", none])]⟩, rfl, ?_⟩
    have h := (validate_fail_closed passDF passSpecs passSchema rfl (by decide)).2
      ⟨[("id", [some "1", some "2"]), ("name", [some "Alice", none])]⟩ rfl
    exact ⟨h.1, h.2.1⟩
  · have hco : ∀ q ∈ badSpecs, ∀ col, badDF.getCol q.1 = some col →
        ∃ c2, applyCol q.2.dtype col = Except.ok c2 := by
      intro q hq col _
      have hq' : q = ("value", { dtype := some "float", nullable := false }) := by
        simpa [badSpecs] using hq
      subst hq'
      exact ⟨col.map coerceNumCell, rfl⟩
    have hbad : ∃ name sp col col2, (name, sp) ∈ badSpecs ∧ sp.nullable = false ∧
        badDF.getCol name = some col ∧ applyCol sp.dtype col = Except.ok col2 ∧
        hasNull col2 = true := by
      exact ⟨"value", { dtype := some "float", nullable := false }, [some "x"], [none],
        by simp [badSpecs], rfl, by decide, rfl, by decide⟩
    exact (validate_fail_closed badDF badSpecs badSchema rfl (by decide)).1 hco hbad

/-- `List.any` only depends on membership, hence is invariant under
permutation of the list. -/
lemma any_perm {α : Type} (l1 l2 : List α) (h : List.Perm l1 l2) (p : α → Bool) :
    l1.any p = l2.any p := by
  rw [Bool.eq_iff_iff]
  simp only [List.any_eq_true]
  constructor
  · rintro ⟨x, hx, hpx⟩; exact ⟨x, h.mem_iff.mp hx, hpx⟩
  · rintro ⟨x, hx, hpx⟩; exact ⟨x, h.mem_iff.mpr hx, hpx⟩

/-- Keyword matching is invariant under reordering a schema's keyword
list. -/
lemma kwMatch_perm (t : String) (s s2 : SchemaDef)
    (hk : List.Perm s.keywords s2.keywords) : kwMatch t s = kwMatch t s2 := by
  unfold kwMatch
  rw [List.Perm.isEmpty_eq hk, any_perm _ _ hk]

/-- The registration-order scan is the first list entry whose keywords
match. -/
lemma identifyScan_eq_find (t : String) (schemas : List (String × SchemaDef)) :
    identifyScan t schemas = (schemas.find? (fun p => kwMatch t p.2)).map Prod.fst := by
  induction schemas with
  | nil => rfl
  | cons p rest ih =>
    show (if p.2.keywords.isEmpty then identifyScan t rest
      else if p.2.keywords.any (fun kw => strOccurs (pyLower kw) t) then some p.1
      else identifyScan t rest) = _
    by_cases he : p.2.keywords.isEmpty = true
    · rw [if_pos he]
      have hm : kwMatch t p.2 = false := by unfold kwMatch; rw [he]; rfl
      rw [List.find?_cons_of_neg _ (by simp [hm]), ih]
    · rw [if_neg he]
      by_cases ha : p.2.keywords.any (fun kw => strOccurs (pyLower kw) t) = true
      · rw [if_pos ha]
        have hm : kwMatch t p.2 = true := by
          unfold kwMatch
          rw [ha, Bool.and_true]
          simpa using he
        rw [@List.find?_cons_of_pos _ (fun x => kwMatch t x.2) p rest hm]
        rfl
      · rw [if_neg ha]
        have hm : kwMatch t p.2 = false := by
          unfold kwMatch
          rw [Bool.eq_false_iff]
          intro habs
          exact ha (Bool.and_elim_right habs)
        rw [List.find?_cons_of_neg _ (by simp [hm]), ih]

/-- The first match is unchanged when every schema's keyword list is
permuted in place (names and registration order fixed). -/
lemma find_kwMatch_forall2 (t : String) (schemas schemas2 : List (String × SchemaDef))
    (hperm : List.Forall₂
      (fun a b => a.1 = b.1 ∧ List.Perm a.2.keywords b.2.keywords) schemas schemas2) :
    (schemas2.find? (fun p => kwMatch t p.2)).map Prod.fst =
      (schemas.find? (fun p => kwMatch t p.2)).map Prod.fst := by
  induction hperm with
  | nil => rfl
  | cons hab hrest ih =>
    rename_i a b l1 l2
    obtain ⟨hn, hk⟩ := hab
    have hm : kwMatch t b.2 = kwMatch t a.2 := (kwMatch_perm t _ _ hk).symm
    cases hma : kwMatch t a.2 with
    | false =>
      rw [List.find?_cons_of_neg _ (by simp [hm, hma]),
        List.find?_cons_of_neg _ (by simp [hma]), ih]
    | true =>
      rw [@List.find?_cons_of_pos _ (fun x => kwMatch t x.2) b l2 (hm.trans hma),
        @List.find?_cons_of_pos _ (fun x => kwMatch t x.2) a l1 hma]
      simp [hn]

/-- Unfolding `identify_schema_from_content` at decodable content. -/
lemma identify_eq_of_decode (big5 : List Nat → Option String)
    (schemas : List (String × SchemaDef)) (raw : List Nat) (t : String)
    (hdec : decodeFallback big5 raw = some t) :
    SchemaManager.identify_schema_from_content big5 schemas raw =
      (if schemas.isEmpty || (pyLower t).isEmpty then none
       else identifyScan (pyLower t) schemas) := by
  unfold SchemaManager.identify_schema_from_content
  rw [hdec]

/-- C6 (amended).  For every content that decodes — primary encoding,
else the legacy fallback — into *non-empty* text whose lower-cased form
contains keywords of two (or more) distinct registered schemas,
`identify_schema_from_content` returns the name of the matching schema
registered first, independently of the order of keywords inside each
schema's own list, and the returned schema's keyword list is non-empty.
(The original claim, without the non-emptiness proviso, fails at empty
decoded text: see the counterexample.) -/
theorem identify_first_registered_wins (big5 : List Nat → Option String)
    (schemas schemas2 : List (String × SchemaDef)) (raw : List Nat) (t : String)
    (hdec : decodeFallback big5 raw = some t)
    (hne : (pyLower t).isEmpty = false)
    (hperm : List.Forall₂
      (fun a b => a.1 = b.1 ∧ List.Perm a.2.keywords b.2.keywords) schemas schemas2)
    (p q : String × SchemaDef) (hp : p ∈ schemas) (hq : q ∈ schemas) (hpq : p ≠ q)
    (hpm : kwMatch (pyLower t) p.2 = true) (hqm : kwMatch (pyLower t) q.2 = true) :
    ∃ r ∈ schemas, schemas.find? (fun x => kwMatch (pyLower t) x.2) = some r ∧
      SchemaManager.identify_schema_from_content big5 schemas2 raw = some r.1 ∧
      r.2.keywords ≠ [] ∧ kwMatch (pyLower t) r.2 = true := by
  have hsome : (schemas.find? (fun x => kwMatch (pyLower t) x.2)).isSome :=
    List.find?_isSome.mpr ⟨p, hp, hpm⟩
  obtain ⟨r, hr⟩ := Option.isSome_iff_exists.mp hsome
  have hrm : kwMatch (pyLower t) r.2 = true :=
    @List.find?_some _ (fun x => kwMatch (pyLower t) x.2) r schemas hr
  have hkne : r.2.keywords ≠ [] := by
    intro habs
    unfold kwMatch at hrm
    rw [habs] at hrm
    cases hrm
  refine ⟨r, List.mem_of_find?_eq_some hr, hr, ?_, hkne, hrm⟩
  rw [identify_eq_of_decode big5 schemas2 raw t hdec]
  have hs2ne : schemas2.isEmpty = false := by
    cases schemas2 with
    | nil =>
      cases hperm
      cases hp
    | cons a l => rfl
  rw [hs2ne, hne]
  show identifyScan (pyLower t) schemas2 = some r.1
  rw [identifyScan_eq_find, find_kwMatch_forall2 _ _ _ hperm, hr]
  rfl

/-- Witness for the amended C6: two schemas sharing the keyword `alpha`,
with the second schema's own keyword list reordered; the content decodes
to `ALPHA beta`, both schemas match, and the first-registered schema
wins. -/
theorem identify_first_registered_wins_witness :
    SchemaManager.identify_schema_from_content noBig5 tieSchemasPermuted
      (strToBytes "ALPHA beta") = some "first_schema" := by
  have h := identify_first_registered_wins noBig5 tieSchemas tieSchemasPermuted
    (strToBytes "ALPHA beta") "ALPHA beta" (by decide) (by decide)
    (by
      constructor
      · exact ⟨rfl, List.Perm.refl _⟩
      constructor
      · exact ⟨rfl, List.Perm.swap "alpha" "beta" []⟩
      constructor)
    ("first_schema", { keywords := ["alpha"] })
    ("second_schema", { keywords := ["beta", "alpha"] })
    (by decide) (by decide) (by decide) (by decide) (by decide)
  obtain ⟨r, _, hfind, hid, _, _⟩ := h
  have hr : r = ("first_schema", { keywords := ["alpha"] }) := by
    have : tieSchemas.find?
        (fun x => kwMatch (pyLower "ALPHA beta") x.2) =
        some ("first_schema", { keywords := ["alpha"] }) := by decide
    rw [this] at hfind
    exact (Option.some.injEq _ _).mp hfind.symm
  rw [hid, hr]

/-- `hash_exists` as the Boolean `any` used by `register_file`'s
primary-key check. -/
lemma hash_exists_eq_any (m : List ManifestRow) (h : String) :
    ManifestManager.hash_exists m h = m.any (fun r => r.file_hash == h) := by
  rw [Bool.eq_iff_iff, hash_exists_iff, List.any_eq_true]
  simp

/-- `update_status` keeps the list of hashes. -/
lemma update_status_map_hash (m : List ManifestRow) (h s : String) :
    (ManifestManager.update_status m h s).map ManifestRow.file_hash =
      m.map ManifestRow.file_hash := by
  unfold ManifestManager.update_status
  rw [List.map_map]
  apply List.map_congr_left
  intro r _
  simp only [Function.comp_apply]
  split <;> rfl

/-- Loop equation: an already-registered hash is skipped and counted. -/
lemma ingRunLoop_cons_skip (hash : List Nat → String) (path : String)
    (content : List Nat) (d : List (String × List Nat)) (st : IngestState)
    (c : IngestCounts)
    (hex : ManifestManager.hash_exists st.manifest (hash content) = true) :
    IngestionPipeline.runLoop hash ((path, content) :: d) st c =
      IngestionPipeline.runLoop hash d st ⟨c.scanned + 1, c.added, c.skipped + 1⟩ := by
  show (if ManifestManager.hash_exists st.manifest (hash content) then
      IngestionPipeline.runLoop hash d st ⟨c.scanned + 1, c.added, c.skipped + 1⟩
    else
      match ManifestManager.register_file st.manifest (hash content) path with
      | Except.error e => (st, ⟨c.scanned + 1, c.added, c.skipped⟩, some e)
      | Except.ok m2 =>
        match RawLakeLoader.save_file st.rawLake content (hash content) with
        | Except.error e => ({ st with manifest := m2 }, ⟨c.scanned + 1, c.added, c.skipped⟩, some e)
        | Except.ok lake2 =>
          IngestionPipeline.runLoop hash d
            ⟨ManifestManager.update_status m2 (hash content) "loaded_to_raw_lake", lake2⟩
            ⟨c.scanned + 1, c.added + 1, c.skipped⟩) =
    IngestionPipeline.runLoop hash d st ⟨c.scanned + 1, c.added, c.skipped + 1⟩
  rw [hex]
  simp

/-- Loop equation: a fresh hash (absent from the manifest and the raw
lake) is registered, saved, and marked `loaded_to_raw_lake`. -/
lemma ingRunLoop_cons_new (hash : List Nat → String) (path : String)
    (content : List Nat) (d : List (String × List Nat)) (st : IngestState)
    (c : IngestCounts)
    (hex : ManifestManager.hash_exists st.manifest (hash content) = false)
    (hlake : st.rawLake.any (fun p => p.1 == hash content) = false) :
    IngestionPipeline.runLoop hash ((path, content) :: d) st c =
      IngestionPipeline.runLoop hash d
        ⟨ManifestManager.update_status
            (st.manifest ++ [⟨hash content, path, "t0", "registered"⟩])
            (hash content) "loaded_to_raw_lake",
          st.rawLake ++ [(hash content, content)]⟩
        ⟨c.scanned + 1, c.added + 1, c.skipped⟩ := by
  have hany : st.manifest.any (fun r => r.file_hash == hash content) = false := by
    rw [← hash_exists_eq_any]
    exact hex
  have hreg : ManifestManager.register_file st.manifest (hash content) path =
      Except.ok (st.manifest ++ [⟨hash content, path, "t0", "registered"⟩]) := by
    unfold ManifestManager.register_file
    rw [hany]
    simp
  have hsave : RawLakeLoader.save_file st.rawLake content (hash content) =
      Except.ok (st.rawLake ++ [(hash content, content)]) := by
    unfold RawLakeLoader.save_file
    rw [hlake]
    simp
  show (if ManifestManager.hash_exists st.manifest (hash content) then
      IngestionPipeline.runLoop hash d st ⟨c.scanned + 1, c.added, c.skipped + 1⟩
    else
      match ManifestManager.register_file st.manifest (hash content) path with
      | Except.error e => (st, ⟨c.scanned + 1, c.added, c.skipped⟩, some e)
      | Except.ok m2 =>
        match RawLakeLoader.save_file st.rawLake content (hash content) with
        | Except.error e => ({ st with manifest := m2 }, ⟨c.scanned + 1, c.added, c.skipped⟩, some e)
        | Except.ok lake2 =>
          IngestionPipeline.runLoop hash d
            ⟨ManifestManager.update_status m2 (hash content) "loaded_to_raw_lake", lake2⟩
            ⟨c.scanned + 1, c.added + 1, c.skipped⟩) = _
  rw [hex, hreg, hsave]
  simp

/-- The ingestion loop, started from stores satisfying the invariant,
never aborts, preserves the invariant, registers every scanned file's
hash, and keeps every previously registered hash. -/
lemma ingRunLoop_inv (hash : List Nat → String) (d : List (String × List Nat))
    (st : IngestState) (c : IngestCounts) (hinv : IngestInv st) :
    IngestInv (IngestionPipeline.runLoop hash d st c).1 ∧
    (IngestionPipeline.runLoop hash d st c).2.2 = none ∧
    (∀ pc ∈ d, hash pc.2 ∈
      (IngestionPipeline.runLoop hash d st c).1.manifest.map ManifestRow.file_hash) ∧
    (∀ h, h ∈ st.manifest.map ManifestRow.file_hash →
      h ∈ (IngestionPipeline.runLoop hash d st c).1.manifest.map ManifestRow.file_hash) := by
  induction d generalizing st c with
  | nil => exact ⟨hinv, rfl, by simp, fun h hh => hh⟩
  | cons pc d ih =>
    obtain ⟨path, content⟩ := pc
    cases hex : ManifestManager.hash_exists st.manifest (hash content) with
    | true =>
      rw [ingRunLoop_cons_skip hash path content d st c hex]
      obtain ⟨i1, i2, i3, i4⟩ := ih st ⟨c.scanned + 1, c.added, c.skipped + 1⟩ hinv
      refine ⟨i1, i2, ?_, i4⟩
      intro pc hmem
      rcases List.mem_cons.mp hmem with heq | hmem'
      · have hin : hash content ∈ st.manifest.map ManifestRow.file_hash := by
          obtain ⟨r, hr, hrh⟩ := (hash_exists_iff _ _).mp hex
          exact List.mem_map.mpr ⟨r, hr, hrh⟩
        rw [heq]
        exact i4 _ hin
      · exact i3 pc hmem'
    | false =>
      have hnotm : hash content ∉ st.manifest.map ManifestRow.file_hash := by
        intro habs
        obtain ⟨r, hr, hrh⟩ := List.mem_map.mp habs
        rw [(hash_exists_iff _ _).mpr ⟨r, hr, hrh⟩] at hex
        cases hex
      have hnotl : hash content ∉ st.rawLake.map Prod.fst := by
        intro habs
        exact hnotm ((hinv.2.2 (hash content)).mp habs)
      have hlake : st.rawLake.any (fun p => p.1 == hash content) = false := by
        rw [Bool.eq_false_iff]
        intro habs
        obtain ⟨p, hp, hph⟩ := List.any_eq_true.mp habs
        exact hnotl (List.mem_map.mpr ⟨p, hp, by simpa using hph⟩)
      rw [ingRunLoop_cons_new hash path content d st c hex hlake]
      have hmap2 : (ManifestManager.update_status
          (st.manifest ++ [⟨hash content, path, "t0", "registered"⟩])
          (hash content) "loaded_to_raw_lake").map ManifestRow.file_hash =
          st.manifest.map ManifestRow.file_hash ++ [hash content] := by
        rw [update_status_map_hash, List.map_append]
        rfl
      have hinv2 : IngestInv ⟨ManifestManager.update_status
          (st.manifest ++ [⟨hash content, path, "t0", "registered"⟩])
          (hash content) "loaded_to_raw_lake",
          st.rawLake ++ [(hash content, content)]⟩ := by
      
        refine ⟨?_, ?_, ?_⟩
        · show (ManifestManager.update_status _ _ _).map ManifestRow.file_hash |>.Nodup
          rw [hmap2]
          rw [List.nodup_append]
          exact ⟨hinv.1, List.nodup_singleton _, by simpa using hnotm⟩
        · show ((st.rawLake ++ [(hash content, content)]).map Prod.fst).Nodup
          rw [List.map_append]
          rw [List.nodup_append]
          exact ⟨hinv.2.1, List.nodup_singleton _, by simpa using hnotl⟩
        · intro h
          show h ∈ (st.rawLake ++ [(hash content, content)]).map Prod.fst ↔
            h ∈ (ManifestManager.update_status _ _ _).map ManifestRow.file_hash
          rw [hmap2, List.map_append]
          simp only [List.mem_append]
          rw [hinv.2.2 h]
          rfl
      obtain ⟨i1, i2, i3, i4⟩ := ih _ ⟨c.scanned + 1, c.added + 1, c.skipped⟩ hinv2
      refine ⟨i1, i2, ?_, ?_⟩
      · intro pc hmem
        rcases List.mem_cons.mp hmem with heq | hmem'
        · rw [heq]
          apply i4
          rw [hmap2]
          simp
        · exact i3 pc hmem'
      · intro h hh
        apply i4
        rw [hmap2]
        exact List.mem_append.mpr (Or.inl hh)

/-- A scan over a directory all of whose hashes are already registered
changes nothing: every file is counted as skipped. -/
lemma ingRunLoop_all_exist (hash : List Nat → String) (d : List (String × List Nat))
    (st : IngestState) (c : IngestCounts)
    (hall : ∀ pc ∈ d, ManifestManager.hash_exists st.manifest (hash pc.2) = true) :
    IngestionPipeline.runLoop hash d st c =
      (st, ⟨c.scanned + d.length, c.added, c.skipped + d.length⟩, none) := by
  induction d generalizing c with
  | nil => rfl
  | cons pc d ih =>
    obtain ⟨path, content⟩ := pc
    rw [ingRunLoop_cons_skip hash path content d st c (hall (path, content) (by simp))]
    rw [ih ⟨c.scanned + 1, c.added, c.skipped + 1⟩ (fun pc h => hall pc (by simp [h]))]
    have h1 : c.scanned + 1 + d.length = c.scanned + (d.length + 1) := by omega
    have h2 : c.skipped + 1 + d.length = c.skipped + (d.length + 1) := by omega
    rw [h1, h2]
    rfl

/-- A filter keyed by an injectively-mapped value finds exactly one
element. -/
lemma count_one_of_nodup {α β : Type} [BEq β] [LawfulBEq β] (l : List α) (f : α → β)
    (hnd : (l.map f).Nodup) (b : β) (hmem : b ∈ l.map f) :
    (l.filter (fun a => f a == b)).length = 1 := by
  induction l with
  | nil => simp at hmem
  | cons a l ih =>
    rw [List.map_cons] at hnd hmem
    obtain ⟨hnot, hndl⟩ := List.nodup_cons.mp hnd
    by_cases hc : f a = b
    · rw [List.filter_cons_of_pos (by simpa using hc)]
      have hzero : l.filter (fun x => f x == b) = [] := by
        rw [List.filter_eq_nil_iff]
        intro x hx habs
        exact hnot (hc ▸ (eq_of_beq habs) ▸ List.mem_map_of_mem f hx)
      rw [hzero]
      rfl
    · rw [List.filter_cons_of_neg (by simpa using hc)]
      apply ih hndl
      rcases List.mem_cons.mp hmem with heq | hmem'
      · exact absurd heq.symm hc
      · exact hmem'

/-- Any sequence of ingestion runs from empty stores preserves the
invariant. -/
lemma multiRun_inv (hash : List Nat → String)
    (dirs : List (List (String × List Nat))) :
    IngestInv (IngestionPipeline.multiRun hash dirs) := by
  unfold IngestionPipeline.multiRun
  have hstep : ∀ (st : IngestState), IngestInv st →
      ∀ d, IngestInv (IngestionPipeline.run hash d st).1 := by
    intro st hst d
    exact (ingRunLoop_inv hash d st ⟨0, 0, 0⟩ hst).1
  suffices hgen : ∀ (st : IngestState), IngestInv st →
      IngestInv (dirs.foldl (fun st d => (IngestionPipeline.run hash d st).1) st) by
    exact hgen ⟨[], []⟩ ⟨List.nodup_nil, List.nodup_nil, by simp⟩
  induction dirs with
  | nil => exact fun st h => h
  | cons d dirs ih =>
    intro st h
    exact ih _ (hstep st h d)

/-- C7.  Content-hash dedup and idempotent rescanning: after any
sequence of ingestion runs from empty stores, each hash keys at most one
manifest row and at most one raw blob (both hash lists are duplicate
free); a directory containing two byte-identical files yields exactly
one manifest row and exactly one blob for that content's hash; and a
second run over an unchanged directory leaves both stores untouched and
counts every rescanned file as skipped, registering zero new files. -/
theorem ingestion_dedup_idempotent (hash : List Nat → String)
    (dirs : List (List (String × List Nat))) (fs : List (String × List Nat))
    (p1 p2 : String) (content : List Nat) :
    ((IngestionPipeline.multiRun hash dirs).manifest.map ManifestRow.file_hash).Nodup ∧
    ((IngestionPipeline.multiRun hash dirs).rawLake.map Prod.fst).Nodup ∧
    ((p1, content) ∈ fs → (p2, content) ∈ fs →
      ((IngestionPipeline.run hash fs ⟨[], []⟩).1.manifest.filter
          (fun r => r.file_hash == hash content)).length = 1 ∧
      ((IngestionPipeline.run hash fs ⟨[], []⟩).1.rawLake.filter
          (fun p => p.1 == hash content)).length = 1) ∧
    IngestionPipeline.run hash fs (IngestionPipeline.run hash fs ⟨[], []⟩).1 =
      ((IngestionPipeline.run hash fs ⟨[], []⟩).1, ⟨fs.length, 0, fs.length⟩, none) := by
  have hbase : IngestInv ⟨[], []⟩ := ⟨List.nodup_nil, List.nodup_nil, by simp⟩
  obtain ⟨i1, i2, i3, i4⟩ := ingRunLoop_inv hash fs ⟨[], []⟩ ⟨0, 0, 0⟩ hbase
  refine ⟨(multiRun_inv hash dirs).1, (multiRun_inv hash dirs).2.1, ?_, ?_⟩
  · intro h1 _h2
    have hmm : hash content ∈ (IngestionPipeline.run hash fs ⟨[], []⟩).1.manifest.map
        ManifestRow.file_hash := i3 (p1, content) h1
    constructor
    · exact count_one_of_nodup _ ManifestRow.file_hash i1.1 _ hmm
    · exact count_one_of_nodup _ Prod.fst i1.2.1 _ ((i1.2.2 _).mpr hmm)
  · have hall : ∀ pc ∈ fs, ManifestManager.hash_exists
        (IngestionPipeline.run hash fs ⟨[], []⟩).1.manifest (hash pc.2) = true := by
      intro pc hpc
      rw [hash_exists_iff]
      obtain ⟨r, hr, hrh⟩ := List.mem_map.mp (i3 pc hpc)
      exact ⟨r, hr, hrh⟩
    show IngestionPipeline.runLoop hash fs _ ⟨0, 0, 0⟩ = _
    rw [ingRunLoop_all_exist hash fs _ ⟨0, 0, 0⟩ hall]
    have hz : (0 : Nat) + fs.length = fs.length := Nat.zero_add _
    rw [hz]

/-- Witness for C7 on a directory holding `a.txt` and `b.txt` with
byte-identical content `hello`: one manifest row for the shared hash and
an unchanged second run with both files skipped. -/
theorem ingestion_dedup_idempotent_witness :
    ((IngestionPipeline.run asciiHash dupDir ⟨[], []⟩).1.manifest.filter
        (fun r => r.file_hash == asciiHash (strToBytes "hello"))).length = 1 ∧
    IngestionPipeline.run asciiHash dupDir
        (IngestionPipeline.run asciiHash dupDir ⟨[], []⟩).1 =
      ((IngestionPipeline.run asciiHash dupDir ⟨[], []⟩).1, ⟨2, 0, 2⟩, none) := by
  have h := ingestion_dedup_idempotent asciiHash [dupDir] dupDir "a.txt" "b.txt"
    (strToBytes "hello")
  exact ⟨(h.2.2.1 (by decide) (by decide)).1, h.2.2.2⟩

/-- The guarded unregister attempt never introduces a view. -/
lemma tryUnreg_not_mem (oracle : LCall → LResp) (site : LCall) (view : String)
    (views : List String) (v : String) (hv : v ∉ views) :
    v ∉ (tryUnregSwallowDuck oracle site view views).1 := by
  unfold tryUnregSwallowDuck
  split
  · exact fun hmem => hv (List.mem_of_mem_erase hmem)
  · split
    · exact hv
    · exact hv

/-- The exception handlers never introduce a view: a view absent before
the handler is absent after it. -/
lemma handleExc_not_mem (oracle : LCall → LResp) (tv : Option String)
    (views : List String) (e : PyExc) (v : String) (hv : v ∉ views) :
    v ∉ (ProcessedDBLoader.handleExc oracle tv views e).views := by
  unfold ProcessedDBLoader.handleExc
  by_cases hd : e.isDuck = true
  · rw [if_pos hd]
    cases tv with
    | none => exact hv
    | some w =>
      rcases htr : tryUnregSwallowDuck oracle LCall.unregH1 w views with ⟨vs, r⟩
      have hnm : v ∉ vs := by
        have h := tryUnreg_not_mem oracle LCall.unregH1 w views v hv
        rw [htr] at h
        exact h
      show v ∉ (match tryUnregSwallowDuck oracle LCall.unregH1 w views with
        | (vs, none) => ({ views := vs, raised := some e } : LoadOutcome)
        | (vs, some e2) => { views := vs, raised := some e2 }).views
      rw [htr]
      cases r with
      | none => exact hnm
      | some e2 => exact hnm
  · rw [if_neg hd]
    by_cases hb : (e == PyExc.attr) = true
    · rw [if_pos hb]
      exact hv
    · rw [if_neg hb]
      cases tv with
      | none => exact hv
      | some w =>
        rcases htr : tryUnregSwallowDuck oracle LCall.unregH3 w views with ⟨vs, r⟩
        have hnm : v ∉ vs := by
          have h := tryUnreg_not_mem oracle LCall.unregH3 w views v hv
          rw [htr] at h
          exact h
        show v ∉ (match tryUnregSwallowDuck oracle LCall.unregH3 w views with
          | (vs, none) => ({ views := vs, raised := some e } : LoadOutcome)
          | (vs, some e2) => { views := vs, raised := some e2 }).views
        rw [htr]
        cases r with
        | none => exact hnm
        | some e2 => exact hnm

/-- Erasing the appended view from a list that did not contain it
removes it completely. -/
lemma erase_appended_not_mem (v : String) (v0 : List String) (hv : v ∉ v0) :
    v ∉ (v0 ++ [v]).erase v := by
  rw [List.erase_append_right _ hv]
  simpa using hv

/-- A non-`AttributeError` exception raised after the view was
registered is cleaned up by the handlers, provided the handlers' own
unregister calls succeed. -/
lemma handleExc_removes (oracle : LCall → LResp) (v : String) (v0 : List String)
    (e : PyExc) (hv : v ∉ v0) (he : e ≠ PyExc.attr)
    (h1 : ∃ b, oracle LCall.unregH1 = LResp.ok b)
    (h3 : ∃ b, oracle LCall.unregH3 = LResp.ok b) :
    v ∉ (ProcessedDBLoader.handleExc oracle (some v) (v0 ++ [v]) e).views := by
  obtain ⟨b1, hb1⟩ := h1
  obtain ⟨b3, hb3⟩ := h3
  have herase := erase_appended_not_mem v v0 hv
  unfold ProcessedDBLoader.handleExc tryUnregSwallowDuck
  by_cases hd : e.isDuck = true
  · rw [if_pos hd, hb1]
    exact herase
  · rw [if_neg hd]
    have hba : (e == PyExc.attr) = false := by
      rw [beq_eq_false_iff_ne]
      exact he
    rw [if_neg (by simp [hba] : ¬ (e == PyExc.attr) = true), hb3]
    exact herase

/-- The upsert tail (insert statement, then unregister) always leaves
the view unregistered when no call raises `AttributeError` and the
unregister calls succeed. -/
lemma loadFinal_removes (oracle : LCall → LResp) (v : String) (v0 : List String)
    (hv : v ∉ v0)
    (hattr : ∀ call, oracle call ≠ LResp.raise PyExc.attr)
    (hm : ∃ b, oracle LCall.unregMain = LResp.ok b)
    (h1 : ∃ b, oracle LCall.unregH1 = LResp.ok b)
    (h3 : ∃ b, oracle LCall.unregH3 = LResp.ok b) :
    v ∉ (ProcessedDBLoader.loadFinal oracle v (v0 ++ [v])).views := by
  unfold ProcessedDBLoader.loadFinal
  cases hu : oracle LCall.upsert with
  | raise e =>
    have he : e ≠ PyExc.attr := fun habs => hattr LCall.upsert (habs ▸ hu)
    exact handleExc_removes oracle v v0 e hv he h1 h3
  | ok b =>
    obtain ⟨bm, hbm⟩ := hm
    rw [hbm]
    exact erase_appended_not_mem v v0 hv

/-- The table-creation branch always leaves the view unregistered under
the same provisos. -/
lemma createBranch_removes (oracle : LCall → LResp) (df : PandasDF)
    (schema : SchemaDef) (v : String) (v0 : List String) (hv : v ∉ v0)
    (hattr : ∀ call, oracle call ≠ LResp.raise PyExc.attr)
    (hm : ∃ b, oracle LCall.unregMain = LResp.ok b)
    (h1 : ∃ b, oracle LCall.unregH1 = LResp.ok b)
    (h3 : ∃ b, oracle LCall.unregH3 = LResp.ok b) :
    v ∉ (ProcessedDBLoader.createBranch oracle df schema v (v0 ++ [v])).views := by
  have hrm := handleExc_removes oracle v v0
  have hfin := loadFinal_removes oracle v v0 hv hattr hm h1 h3
  unfold ProcessedDBLoader.createBranch
  cases hca : oracle LCall.createAs with
  | raise e =>
    exact hrm e hv (fun habs => hattr LCall.createAs (habs ▸ hca)) h1 h3
  | ok b =>
    by_cases hcw : (ProcessedDBLoader.columnsWithTypes df schema).isEmpty = true
    case pos =>
      rw [if_pos hcw]
      cases hc1 : oracle LCall.createIfne1 with
      | raise e => exact hrm e hv (fun habs => hattr LCall.createIfne1 (habs ▸ hc1)) h1 h3
      | ok b2 => exact hfin
    case neg =>
      rw [if_neg hcw]
      cases hc2 : oracle LCall.createIfne2 with
      | raise e => exact hrm e hv (fun habs => hattr LCall.createIfne2 (habs ▸ hc2)) h1 h3
      | ok b2 =>
        cases hal : oracle LCall.alterPK with
        | raise e =>
          show v ∉ (if e.isDuck = true then
              (match oracle LCall.postSelect with
               | LResp.raise e2 =>
                 ProcessedDBLoader.handleExc oracle (some v) (v0 ++ [v]) e2
               | LResp.ok _ => ProcessedDBLoader.loadFinal oracle v (v0 ++ [v]))
            else ProcessedDBLoader.handleExc oracle (some v) (v0 ++ [v]) e).views
          by_cases hd : e.isDuck = true
          · rw [if_pos hd]
            cases hps : oracle LCall.postSelect with
            | raise e2 =>
              exact hrm e2 hv (fun habs => hattr LCall.postSelect (habs ▸ hps)) h1 h3
            | ok b3 => exact hfin
          · rw [if_neg hd]
            exact hrm e hv (fun habs => hattr LCall.alterPK (habs ▸ hal)) h1 h3
        | ok b3 =>
          cases hps : oracle LCall.postSelect with
          | raise e2 =>
            exact hrm e2 hv (fun habs => hattr LCall.postSelect (habs ▸ hps)) h1 h3
          | ok b4 => exact hfin

/-- C9 (amended).  In upsert mode (non-empty `unique_key`),
`load_dataframe` unregisters the transient view it registered on every
exit path — success or raised exception — **provided** no engine call
raises an `AttributeError` (that handler re-raises without cleanup — see
the counterexample) and the unregister calls themselves succeed (the
handlers silently swallow a DuckDB error from their own cleanup
attempt). -/
theorem load_dataframe_unregisters (oracle : LCall → LResp) (df : PandasDF)
    (table_name : String) (schema : SchemaDef) (v0 : List String) (uk : List String)
    (huk : schema.unique_key = some uk) (hne : uk ≠ [])
    (hv0 : ("temp_view_" ++ table_name) ∉ v0)
    (hattr : ∀ call, oracle call ≠ LResp.raise PyExc.attr)
    (hm : ∃ b, oracle LCall.unregMain = LResp.ok b)
    (hec : ∃ b, oracle LCall.unregEmptyCols = LResp.ok b)
    (h1 : ∃ b, oracle LCall.unregH1 = LResp.ok b)
    (h3 : ∃ b, oracle LCall.unregH3 = LResp.ok b) :
    ("temp_view_" ++ table_name) ∉
      (ProcessedDBLoader.load_dataframe oracle df table_name schema v0).views := by
  unfold ProcessedDBLoader.load_dataframe
  by_cases hemp : df.isEmptyDF = true
  · rw [if_pos hemp]
    exact hv0
  · rw [if_neg hemp, huk]
    cases uk with
    | nil => exact absurd rfl hne
    | cons u us =>
      show ("temp_view_" ++ table_name) ∉
        (match oracle LCall.reg with
         | LResp.raise e =>
           ProcessedDBLoader.handleExc oracle (some ("temp_view_" ++ table_name)) v0 e
         | LResp.ok _ =>
           if ((df.cols.map Prod.fst).isEmpty : Bool) then
             match oracle LCall.unregEmptyCols with
             | LResp.ok _ =>
               ⟨(v0 ++ ["temp_view_" ++ table_name]).erase ("temp_view_" ++ table_name), none⟩
             | LResp.raise e =>
               ProcessedDBLoader.handleExc oracle (some ("temp_view_" ++ table_name))
                 (v0 ++ ["temp_view_" ++ table_name]) e
           else
             match oracle LCall.tblExists with
             | LResp.raise e =>
               ProcessedDBLoader.handleExc oracle (some ("temp_view_" ++ table_name))
                 (v0 ++ ["temp_view_" ++ table_name]) e
             | LResp.ok found =>
               if found then
                 ProcessedDBLoader.loadFinal oracle ("temp_view_" ++ table_name)
                   (v0 ++ ["temp_view_" ++ table_name])
               else
                 ProcessedDBLoader.createBranch oracle df schema
                   ("temp_view_" ++ table_name) (v0 ++ ["temp_view_" ++ table_name])).views
      cases hr : oracle LCall.reg with
      | raise e => exact handleExc_not_mem oracle _ v0 e _ hv0
      | ok b =>
        by_cases hcols : ((df.cols.map Prod.fst).isEmpty : Bool) = true
        · rw [if_pos hcols]
          obtain ⟨be, hbe⟩ := hec
          rw [hbe]
          exact erase_appended_not_mem _ v0 hv0
        · rw [if_neg hcols]
          cases ht : oracle LCall.tblExists with
          | raise e =>
            exact handleExc_removes oracle _ v0 e hv0
              (fun habs => hattr LCall.tblExists (habs ▸ ht)) h1 h3
          | ok found =>
            cases found with
            | true => exact loadFinal_removes oracle _ v0 hv0 hattr hm h1 h3
            | false => exact createBranch_removes oracle df schema _ v0 hv0 hattr hm h1 h3

/-- Witness for C5 on a two-file queue: the first file has no raw blob,
the second matches no schema; the loop finishes with no escaped
exception and records each file's own terminal status. -/
theorem run_per_file_isolation_witness :
    (TransformationPipeline.runLoop noBig5 isoSchemas isoLake isoFiles isoManifest).2 = none ∧
    ManifestManager.get_file_status
        (TransformationPipeline.runLoop noBig5 isoSchemas isoLake isoFiles isoManifest).1
        "hash_a" = some "parse_error_no_content" ∧
    ManifestManager.get_file_status
        (TransformationPipeline.runLoop noBig5 isoSchemas isoLake isoFiles isoManifest).1
        "hash_b" = some "parse_error_schema_not_identified" := by
  have h := run_per_file_isolation noBig5 isoSchemas isoLake isoFiles isoManifest
    (by decide) (by decide) (by decide)
  refine ⟨h.1, ?_, ?_⟩
  · have ha := h.2 ("hash_a", "/in/a.csv") (by decide)
    rw [ha]
    decide
  · have hb := h.2 ("hash_b", "/in/b.csv") (by decide)
    rw [hb]
    decide

/-- Witness for C8 at the empty manifest: registering a fresh hash
succeeds, and the hash then exists with status `registered`. -/
theorem register_file_duplicate_key_witness :
    ManifestManager.hash_exists
        [(⟨"h1", "/p", "t0", "registered"⟩ : ManifestRow)] "h1" = true ∧
    ManifestManager.get_file_status
        [(⟨"h1", "/p", "t0", "registered"⟩ : ManifestRow)] "h1" = some "registered" := by
  have h := (register_file_duplicate_key [] "h1" "/p").2
    [⟨"h1", "/p", "t0", "registered"⟩] rfl
  exact ⟨h.2.1, h.2.2.1⟩

/-- Witness for the amended C9: under an engine that raises nothing,
the upsert-mode call leaves no view registered. -/
theorem load_dataframe_unregisters_witness :
    ("temp_view_" ++ "t1") ∉
      (ProcessedDBLoader.load_dataframe (fun _ => LResp.ok false) upsertDF "t1"
        upsertSchema []).views :=
  load_dataframe_unregisters (fun _ => LResp.ok false) upsertDF "t1" upsertSchema [] ["id"]
    rfl (by decide) (by decide) (fun _ h => LResp.noConfusion h)
    ⟨false, rfl⟩ ⟨false, rfl⟩ ⟨false, rfl⟩ ⟨false, rfl⟩
